import Mathlib

/-!
# Reverse tunnel agent pool

A shallow embedding of `lib/reversetunnel/agentpool.go` and
`lib/reversetunnel/agent_dialer.go`.

Conventions of the embedding:

* a Go pointer or interface value that may be nil is an `Option`;
* a Go `error` result is an `Option Error` (`none` is the nil error), a
  `(value, error)` result is an `Except Error value`;
* `trace.Wrap` only attaches a stack trace to an error and is the identity here;
* what a collaborator answers (the auth server, the resolver, the SSH library,
  the Go scheduler choosing a ready `select` case) is an explicit input of the
  function that asks;
* a function that can block on a `select` for ever, or fault, returns an
  `Option`: `none` means that the call does not return.
-/

deriving instance DecidableEq for Except

namespace reversetunnel

/-! ## Collaborators -/

/-- Error values. `badParameter` is `trace.BadParameter(msg)`, `canceled` and
`deadlineExceeded` are the two values of `ctx.Err()` on a finished context,
`EOF` is `io.EOF`, `other` is an error made by a collaborator. -/
inductive Error where
  | badParameter (msg : String)
  | canceled
  | deadlineExceeded
  | EOF
  | other (msg : String)
deriving DecidableEq, Repr

/-- The function `trace.Wrap`: the same error with a stack trace attached. -/
def trace.Wrap (err : Error) : Error := err

/-- The values of `types.ProxyPeering` that `GetProxyPeering` returns. -/
inductive ProxyPeering where
  | Disabled
  | Enabled
deriving DecidableEq, Repr

/-- The part of `types.ClusterNetworkingConfig` the pool reads. -/
structure ClusterNetworkingConfig where
  ProxyPeering : ProxyPeering
  KeepAliveInterval : Nat
deriving DecidableEq, Repr

/-- Modelled from the spec: the agent states, declared in `agent.go`, which is
not among the sources; the spec gives `Connecting → Connected → Closed`. -/
inductive AgentState where
  | AgentConnecting
  | AgentConnected
  | AgentClosed
deriving DecidableEq, Repr

/-- An `*Agent`. `ptr` is the identity of the pointer, `principals` is what
`agent.client.Principals()` returns. -/
structure Agent where
  ptr : Nat
  principals : List String
deriving DecidableEq, Repr

/-- A `track.Lease`, identified by a number. -/
structure Lease where
  id : Nat
deriving DecidableEq, Repr

/-- A `utils.NetAddr`. -/
structure NetAddr where
  Addr : String
  AddrNetwork : String
deriving DecidableEq, Repr

/-! ## Agent store -/

/-- Modelled from the spec: `agentStore` is declared in `agent_store.go`, which
is not among the sources. The spec describes it as an ordered collection of
live agents in insertion order, keyed by agent identity. -/
structure agentStore where
  agents : List Agent
deriving DecidableEq, Repr

/-- Modelled from the spec: `newAgentStore`, the empty store. -/
def newAgentStore : agentStore := ⟨[]⟩

/-- Modelled from the spec: `len()` is the count. -/
def agentStore.len (s : agentStore) : Nat := s.agents.length

/-- Modelled from the spec: `add(a)` appends. -/
def agentStore.add (s : agentStore) (agent : Agent) : agentStore :=
  ⟨s.agents ++ [agent]⟩

/-- Modelled from the spec: `remove(a)` is an idempotent removal that returns
whether a removal happened. Agents are compared by pointer identity. -/
def agentStore.remove (s : agentStore) (agent : Agent) : agentStore × Bool :=
  (⟨s.agents.filter (fun a => a.ptr != agent.ptr)⟩,
   s.agents.any (fun a => a.ptr == agent.ptr))

/-- Modelled from the spec: `last()` is the most recently added agent, or none. -/
def agentStore.last (s : agentStore) : Option Agent := s.agents.getLast?

/-- Modelled from the spec: `pop(if len > n)` removes and returns the oldest
agent while the size exceeds `n`; `none` is the Go result `(nil, false)`. -/
def agentStore.poplen (s : agentStore) (n : Nat) : Option (Agent × agentStore) :=
  match s.agents with
  | [] => none
  | oldest :: rest => if s.agents.length > n then some (oldest, ⟨rest⟩) else none

/-! ## Connected proxies -/

/-- Modelled from the spec: `ConnectedProxies` is declared outside the sources;
it holds the proxy identifiers that `updateProxyIDs` last stored. -/
structure ConnectedProxies where
  ids : List String
deriving DecidableEq, Repr

/-- Modelled from the spec: `NewConnectedProxies`, with no identifier yet. -/
def NewConnectedProxies : ConnectedProxies := ⟨[]⟩

/-- Modelled from the spec: `updateProxyIDs` replaces the stored identifiers. -/
def ConnectedProxies.updateProxyIDs (_c : ConnectedProxies) (ids : List String) :
    ConnectedProxies := ⟨ids⟩

/-! ## Pool configuration -/

/-- A `clockwork.Clock`: the real clock of `clockwork.NewRealClock()` or a
clock supplied by the caller. -/
inductive Clock where
  | real
  | supplied (id : Nat)
deriving DecidableEq, Repr

/-- The struct `AgentPoolConfig`. Interface values, function values and pointers are
`Option`s of a handle; `none` is nil. -/
structure AgentPoolConfig where
  Client : Option Nat
  AccessPoint : Option Nat
  HostSigner : Option Nat
  HostUUID : String
  LocalCluster : String
  Clock : Option Clock
  KubeDialAddr : NetAddr
  Server : Option Nat
  Component : String
  ReverseTunnelServer : Option Nat
  Resolver : Option Nat
  Cluster : String
  FIPS : Bool
  StateCallback : Option Nat
  ConnectedProxies : Option ConnectedProxies
deriving DecidableEq, Repr

/-- The method `CheckAndSetDefaults`: the error, or the configuration with the defaults
set. -/
def AgentPoolConfig.CheckAndSetDefaults (cfg : AgentPoolConfig) :
    Except Error AgentPoolConfig :=
  if cfg.Client = none then
    .error (Error.badParameter "missing 'Client' parameter")
  else if cfg.AccessPoint = none then
    .error (Error.badParameter "missing 'AccessPoint' parameter")
  else if cfg.HostSigner = none then
    .error (Error.badParameter "missing 'HostSigner' parameter")
  else if cfg.HostUUID.length = 0 then
    .error (Error.badParameter "missing 'HostUUID' parameter")
  else if cfg.Cluster = "" then
    .error (Error.badParameter "missing 'Cluster' parameter")
  else
    let cfg1 :=
      if cfg.ConnectedProxies = none then
        { cfg with ConnectedProxies := some NewConnectedProxies }
      else cfg
    let cfg2 :=
      if cfg1.Clock = none then { cfg1 with Clock := some Clock.real } else cfg1
    .ok cfg2

/-! ## The pool -/

/-- The struct `AgentPool`. `wg` is the counter of the wait group. The last fields record
the calls the pool makes on its collaborators: `stopped` lists the agents on
which `agent.Stop()` was launched, `released` the leases on which the pool
called `Release()`, `backoffIncs` counts the calls of `backoff.Inc()`. -/
structure AgentPool where
  AgentPoolConfig : AgentPoolConfig
  active : agentStore
  proxyPeeringEnabled : Bool
  wg : Int
  stopped : List Agent
  released : List Lease
  backoffIncs : Nat
deriving DecidableEq, Repr

/-- The accessor `ConnectedProxies()`. -/
def AgentPool.ConnectedProxies (p : AgentPool) : Option ConnectedProxies :=
  p.AgentPoolConfig.ConnectedProxies

/-- The call `p.AgentPoolConfig.ConnectedProxies.updateProxyIDs(ids)`. The pointer is
not nil in a pool made by `NewAgentPool`. -/
def AgentPool.setProxyIDs (p : AgentPool) (ids : List String) : AgentPool :=
  { p with AgentPoolConfig :=
      { p.AgentPoolConfig with
        ConnectedProxies :=
          p.AgentPoolConfig.ConnectedProxies.map (fun c => c.updateProxyIDs ids) } }

/-- The method `updateConnectedProxies`. `getIDFromPrincipals` is declared outside the
sources and is an argument; a failed lookup is only logged and its identifier
is stored all the same. -/
def AgentPool.updateConnectedProxies
    (getIDFromPrincipals : List String → String × Bool) (p : AgentPool) : AgentPool :=
  if !p.proxyPeeringEnabled then
    p.setProxyIDs []
  else
    match p.active.last with
    | none => p
    | some agent =>
      let proxyID := (getIDFromPrincipals agent.principals).1
      p.setProxyIDs [proxyID]

/-- The method `Count`. -/
def AgentPool.Count (p : AgentPool) : Nat := p.active.len

/-- The method `handleEvent`; `state` is what `agent.GetState()` returns. -/
def AgentPool.handleEvent (p : AgentPool) (agent : Agent) (state : AgentState) :
    AgentPool :=
  match state with
  | .AgentConnected => p
  | .AgentClosed =>
    match p.active.remove agent with
    | (store, true) => { p with active := store, wg := p.wg - 1 }
    | (store, false) => { p with active := store }
  | _ => p

/-- The method `updateSettings`; `config` is the answer of
`p.AccessPoint.GetClusterNetworkingConfig`. -/
def AgentPool.updateSettings (p : AgentPool)
    (config : Except Error ClusterNetworkingConfig) : Option Error × AgentPool :=
  match config with
  | .error err => (some (trace.Wrap err), p)
  | .ok config =>
    if config.ProxyPeering = ProxyPeering.Enabled then
      (none, { p with proxyPeeringEnabled := true })
    else
      (none, { p with proxyPeeringEnabled := false })

/-- The loop of `disconnectAgents`, run at most `fuel` times. -/
def AgentPool.disconnectAgentsLoop : Nat → AgentPool → AgentPool
  | 0, p => p
  | fuel + 1, p =>
    match p.active.poplen 1 with
    | none => p
    | some (agent, store) =>
      AgentPool.disconnectAgentsLoop fuel
        { p with active := store, stopped := p.stopped ++ [agent] }

/-- The method `disconnectAgents`. Every turn of the loop pops one agent, so the loop
leaves through `!ok` within `p.active.len` turns (`disconnectAgents_unfold`). -/
def AgentPool.disconnectAgents (p : AgentPool) : AgentPool :=
  p.disconnectAgentsLoop p.active.len

/-- The method `isAgentRequired`; `config` is the answer to the settings refresh. -/
def AgentPool.isAgentRequired (p : AgentPool)
    (config : Except Error ClusterNetworkingConfig) : Bool × AgentPool :=
  let p1 := (p.updateSettings config).2
  if !p1.proxyPeeringEnabled then
    (true, p1)
  else
    let p2 := p1.disconnectAgents
    (decide (p2.active.len < 1), p2)

/-! ## Waiting on the channels

A `select` blocks until the scheduler picks one of its ready cases. The cases it
picks, in order, are an input: a schedule. A loop that uses up its schedule
without returning stays blocked, which is the result `none`. -/

/-- What one `select` of `waitForLease` picks. `done err` is `<-ctx.Done()` with
`err` the value of `ctx.Err()`; `event agent state` is an agent read from the
events channel, which reports `state`. -/
inductive LeaseSelect where
  | done (err : Error)
  | lease (l : Lease)
  | event (agent : Agent) (state : AgentState)
deriving DecidableEq, Repr

/-- What one `select` of the first loop of `processEvents` picks. -/
inductive DrainSelect where
  | done (err : Error)
  | event (agent : Agent) (state : AgentState)
  | default
deriving DecidableEq, Repr

/-- What one `select` of the second loop of `processEvents` picks; an event comes
with the answer to the settings refresh of the `isAgentRequired` that follows. -/
inductive BlockSelect where
  | done (err : Error)
  | event (agent : Agent) (state : AgentState)
      (settings : Except Error ClusterNetworkingConfig)
deriving Repr

/-- What one `select` of `waitForBackoff` picks. -/
inductive BackoffSelect where
  | done (err : Error)
  | after
  | event (agent : Agent) (state : AgentState)
deriving DecidableEq, Repr

/-- The method `waitForLease`. -/
def AgentPool.waitForLease (p : AgentPool) :
    List LeaseSelect → Option (Except Error Lease × AgentPool)
  | [] => none
  | .done err :: _ => some (.error err, p)
  | .lease l :: _ => some (.ok l, p)
  | .event agent state :: rest => (p.handleEvent agent state).waitForLease rest

/-- The method `waitForBackoff`. -/
def AgentPool.waitForBackoff (p : AgentPool) :
    List BackoffSelect → Option (Option Error × AgentPool)
  | [] => none
  | .done err :: _ => some (some err, p)
  | .after :: _ => some (none, p)
  | .event agent state :: rest => (p.handleEvent agent state).waitForBackoff rest

/-- The first loop of `processEvents`: handle the queued events without blocking. -/
def AgentPool.processEventsDrain (p : AgentPool) :
    List DrainSelect → Option (Option Error × AgentPool)
  | [] => none
  | .done err :: _ => some (some err, p)
  | .default :: _ => some (none, p)
  | .event agent state :: rest => (p.handleEvent agent state).processEventsDrain rest

/-- The second loop of `processEvents`: block until an agent is required. -/
def AgentPool.processEventsBlock (p : AgentPool) :
    List BlockSelect → Option (Option Error × AgentPool)
  | [] => none
  | .done err :: _ => some (some err, p)
  | .event agent state settings :: rest =>
    match (p.handleEvent agent state).isAgentRequired settings with
    | (true, p1) => some (none, p1)
    | (false, p1) => p1.processEventsBlock rest

/-- The method `processEvents`; `settings` answers the settings refresh of the
`isAgentRequired` between the two loops. -/
def AgentPool.processEvents (p : AgentPool) (drain : List DrainSelect)
    (settings : Except Error ClusterNetworkingConfig) (block : List BlockSelect) :
    Option (Option Error × AgentPool) :=
  match p.processEventsDrain drain with
  | none => none
  | some (some err, p1) => some (some (trace.Wrap err), p1)
  | some (none, p1) =>
    match p1.isAgentRequired settings with
    | (true, p2) => some (none, p2)
    | (false, p2) => p2.processEventsBlock block

/-! ## Creating an agent -/

/-- The fields of `agentConfig` that depend on the call of `newAgent`. -/
structure agentConfig where
  addr : NetAddr
  keepAlive : Nat
  lease : Lease
deriving DecidableEq, Repr

/-- The method `newAgent`. `netConfig` is the answer of
`p.AccessPoint.GetClusterNetworkingConfig`, `resolved` the result of calling
`p.Resolver`, `NewAgent` the constructor of `agent.go`; a nil value in an
answer is `none`. The function faults, with the result `none`, where the
source calls or dereferences a nil value without a guard: the call on a nil
`AccessPoint`, the call of a nil `Resolver`, `*addr` on a nil address and
`netConfig.GetKeepAliveInterval()` on a nil networking configuration. -/
def AgentPool.newAgent (p : AgentPool)
    (netConfig : Except Error (Option ClusterNetworkingConfig))
    (resolved : Except Error (Option NetAddr))
    (NewAgent : agentConfig → Except Error Agent) (lease : Lease) :
    Option (Except Error Agent) :=
  match p.AgentPoolConfig.AccessPoint with
  | none => none
  | some _ =>
    match netConfig with
    | .error err => some (.error (trace.Wrap err))
    | .ok netConfig =>
      match p.AgentPoolConfig.Resolver with
      | none => none
      | some _ =>
        match resolved with
        | .error err => some (.error (trace.Wrap err))
        | .ok none => none
        | .ok (some addr) =>
          match netConfig with
          | none => none
          | some netConfig =>
            match NewAgent
                { addr := addr, keepAlive := netConfig.KeepAliveInterval,
                  lease := lease } with
            | .error err => some (.error (trace.Wrap err))
            | .ok agent => some (.ok agent)

/-! ## One iteration of the pool loop -/

/-- What the collaborators answer during one call of `handle`. -/
structure HandleEnv where
  leases : List LeaseSelect
  drain : List DrainSelect
  settings : Except Error ClusterNetworkingConfig
  block : List BlockSelect
  netConfig : Except Error (Option ClusterNetworkingConfig)
  resolved : Except Error (Option NetAddr)
  NewAgent : agentConfig → Except Error Agent
  start : Option Error

/-- The closure of `handle` that runs `processEvents`, `newAgent` and
`agent.Start`; `env.start` is the result of `agent.Start(ctx)`. -/
def AgentPool.handleAttempt (p : AgentPool) (env : HandleEnv) (lease : Lease) :
    Option (Except Error Agent × AgentPool) :=
  match p.processEvents env.drain env.settings env.block with
  | none => none
  | some (some err, p1) => some (.error (trace.Wrap err), p1)
  | some (none, p1) =>
    match p1.newAgent env.netConfig env.resolved env.NewAgent lease with
    | none => none
    | some (.error err) => some (.error (trace.Wrap err), p1)
    | some (.ok agent) =>
      match env.start with
      | some err => some (.error (trace.Wrap err), p1)
      | none => some (.ok agent, p1)

/-- The method `handle`: the returned error and the pool it leaves. -/
def AgentPool.handle (getIDFromPrincipals : List String → String × Bool)
    (p : AgentPool) (env : HandleEnv) : Option (Option Error × AgentPool) :=
  match p.waitForLease env.leases with
  | none => none
  | some (.error err, p1) => some (some (trace.Wrap err), p1)
  | some (.ok lease, p1) =>
    match p1.handleAttempt env lease with
    | none => none
    | some (.error err, p2) =>
      some (some (trace.Wrap err), { p2 with released := p2.released ++ [lease] })
    | some (.ok agent, p2) =>
      let p3 := { p2 with wg := p2.wg + 1 }
      let p4 := { p3 with active := p3.active.add agent }
      some (none, p4.updateConnectedProxies getIDFromPrincipals)

/-! ## Construction -/

/-- The constructor `NewAgentPool`; `retry` is the error of `utils.NewLinear` and `tracker` the
error of `track.New`, `none` when they succeed. The result `.error err` is the
Go result `(nil, err)`. -/
def NewAgentPool (config : AgentPoolConfig) (retry tracker : Option Error) :
    Except Error AgentPool :=
  match config.CheckAndSetDefaults with
  | .error err => .error (trace.Wrap err)
  | .ok config =>
    match retry with
    | some err => .error (trace.Wrap err)
    | none =>
      let pool : AgentPool :=
        { AgentPoolConfig := config
          active := newAgentStore
          proxyPeeringEnabled := false
          wg := 0
          stopped := []
          released := []
          backoffIncs := 0 }
      match tracker with
      | some err => .error (trace.Wrap err)
      | none => .ok pool

/-! ## The agent dialer -/

/-- An `ssh.AuthMethod`, identified by a number. -/
structure AuthMethod where
  id : Nat
deriving DecidableEq, Repr

/-- The options of `proxy.DialerFromEnvironment`. -/
inductive DialerOptionFunc where
  | WithALPNDialer
deriving DecidableEq, Repr

/-- The struct `agentDialer`. -/
structure agentDialer where
  client : Nat
  username : String
  authMethods : List AuthMethod
  fips : Bool
deriving DecidableEq, Repr

/-- The struct `sshClient`: the connection that `ssh.NewClientConn` returned, with its channels
and requests, and the principals that `OnCheckCert` captured. -/
structure sshClient where
  conn : Nat
  principals : List String
deriving DecidableEq, Repr

/-- What the collaborators answer during one call of `DialContext`. `Find` is
the result of `webclient.Find`, the `TLSRoutingEnabled` of its pong. The other
answers depend on the turn of the loop they are asked in: `DialTimeout` gives
the transport connection, `NewHostKeyCallback` the callback, `NewClientConn`
the SSH connection with the principals of the certificate it checked. -/
structure DialEnv where
  Find : Except Error Bool
  DialTimeout : List DialerOptionFunc → Nat → Except Error Nat
  NewHostKeyCallback : Nat → Except Error Nat
  NewClientConn : Nat → AuthMethod → Nat → Nat → Except Error (Nat × List String)

/-- The `proxyOptions` that `DialContext` builds from the answer of
`webclient.Find`. -/
def agentDialer.proxyOptions (env : DialEnv) : List DialerOptionFunc :=
  match env.Find with
  | .ok true => [] ++ [DialerOptionFunc.WithALPNDialer]
  | _ => []

/-- The body of the loop of `DialContext` in turn `turn` with `authMethod`: the
client, or the cause for which the loop logs and continues. -/
def agentDialer.attempt (env : DialEnv) (proxyOptions : List DialerOptionFunc)
    (turn : Nat) (authMethod : AuthMethod) : Except Error sshClient :=
  match env.DialTimeout proxyOptions turn with
  | .error err => .error err
  | .ok pconn =>
    match env.NewHostKeyCallback turn with
    | .error err => .error err
    | .ok callback =>
      match env.NewClientConn turn authMethod pconn callback with
      | .error err => .error err
      | .ok (conn, principals) => .ok { conn := conn, principals := principals }

/-- The loop of `DialContext` over the authentication methods left, from turn
`turn`, and the return that follows it. -/
def agentDialer.dialLoop (env : DialEnv) (proxyOptions : List DialerOptionFunc) :
    Nat → List AuthMethod → Except Error sshClient
  | _, [] => .error (Error.badParameter "failed to dial: all auth methods failed")
  | turn, authMethod :: rest =>
    match agentDialer.attempt env proxyOptions turn authMethod with
    | .error _ => agentDialer.dialLoop env proxyOptions (turn + 1) rest
    | .ok client => .ok client

/-- The method `DialContext`. -/
def agentDialer.DialContext (d : agentDialer) (env : DialEnv) : Except Error sshClient :=
  agentDialer.dialLoop env (agentDialer.proxyOptions env) 0 d.authMethods

/-! ## The adapter from `ServerHandler` to `net.Listener`

`HandleConnection` and `Accept` run in different goroutines and meet on the
unbuffered channel `connCh`. The adapter is a state machine: the state holds
the channel, the `sync.Once` values and, for every call of `HandleConnection`,
the place where the call stands; a step is one of the moves a goroutine can
make. A move that the Go runtime would block is not a step (`none`). -/

/-- Where a call of `HandleConnection` stands: blocked in the send
`l.connCh <- cc`, blocked in `cc.wait()`, returned, or stopped by the runtime
panic of a send on a closed channel. -/
inductive CallState where
  | sending
  | waiting
  | returned
  | panicked
deriving DecidableEq, Repr

/-- A call of `HandleConnection(c)` with the `connCloser` it made. `Conn` is
`c`, `closeOnce` tells whether `cc.closeOnce` has run, `closed` whether the
channel `cc.closed` is closed, `closeCalls` counts the calls of `cc.Close()`. -/
structure HandleCall where
  Conn : Nat
  pc : CallState
  closeOnce : Bool
  closed : Bool
  closeCalls : Nat
deriving DecidableEq, Repr

/-- A `connCloser` value as `Accept` hands it out: the wrapped `Conn` and the
call of `HandleConnection` whose `closeOnce` and `closed` it points to. -/
structure connCloser where
  Conn : Nat
  call : Nat
deriving DecidableEq, Repr

/-- The struct `ServerHandlerToListener` with what its pointers point to. `connChClosed`
tells whether `connCh` is closed, `connChCloses` counts the runs of
`close(l.connCh)`, `closeOnce` tells whether `l.closeOnce` has run, `calls`
lists the calls of `HandleConnection` in order of arrival, `closedConns` lists
the wrapped connections on which `Close()` was called, in order. -/
structure ServerHandlerToListener where
  connChClosed : Bool
  connChCloses : Nat
  closeOnce : Bool
  tunnelAddr : String
  calls : List HandleCall
  closedConns : List Nat
deriving DecidableEq, Repr

/-- The constructor `NewServerHandlerToListener`. -/
def NewServerHandlerToListener (tunnelAddr : String) : ServerHandlerToListener :=
  { connChClosed := false, connChCloses := 0, closeOnce := false,
    tunnelAddr := tunnelAddr, calls := [], closedConns := [] }

/-- The function `newConnCloser`: the call record of a fresh `connCloser` around `c`. -/
def newConnCloser (c : Nat) : HandleCall :=
  { Conn := c, pc := CallState.sending, closeOnce := false, closed := false,
    closeCalls := 0 }

/-- The start of `HandleConnection(c)`: `newConnCloser(c)` and the send
`l.connCh <- cc`, in which the call blocks until an `Accept` receives; on a
closed channel the send panics. -/
def ServerHandlerToListener.HandleConnection (l : ServerHandlerToListener) (c : Nat) :
    ServerHandlerToListener :=
  if l.connChClosed then
    { l with calls := l.calls ++ [{ newConnCloser c with pc := CallState.panicked }] }
  else
    { l with calls := l.calls ++ [newConnCloser c] }

/-- The method `Accept`, receiving from `connCh`. On a closed channel the result is
`(nil, io.EOF)`. On an open one the receive meets the send of the call `pick`,
the blocked sender the runtime chooses: `Accept` returns its `connCloser` and
the call goes on to `cc.wait()`. With no such sender `Accept` blocks. -/
def ServerHandlerToListener.Accept (l : ServerHandlerToListener) (pick : Nat) :
    Option ((Option connCloser × Option Error) × ServerHandlerToListener) :=
  if l.connChClosed then
    some ((none, some Error.EOF), l)
  else
    match l.calls[pick]? with
    | none => none
    | some call =>
      if call.pc = CallState.sending then
        some ((some { Conn := call.Conn, call := pick }, none),
          { l with calls := l.calls.set pick { call with pc := CallState.waiting } })
      else none

/-- The method `connCloser.Close`: `closeOnce.Do` closes `closed` the first time, then
`c.Conn.Close()` is called and its result `err` returned. -/
def connCloser.Close (l : ServerHandlerToListener) (cc : connCloser)
    (err : Option Error) : Option Error × ServerHandlerToListener :=
  match l.calls[cc.call]? with
  | none => (err, { l with closedConns := l.closedConns ++ [cc.Conn] })
  | some call =>
    let call1 :=
      if call.closeOnce then call else { call with closeOnce := true, closed := true }
    (err,
      { l with
        calls := l.calls.set cc.call { call1 with closeCalls := call1.closeCalls + 1 }
        closedConns := l.closedConns ++ [cc.Conn] })

/-- The end of `HandleConnection`: `cc.wait()` receives from `cc.closed`, which
blocks until that channel is closed, and the call returns. -/
def ServerHandlerToListener.HandleConnectionWait (l : ServerHandlerToListener)
    (k : Nat) : Option ServerHandlerToListener :=
  match l.calls[k]? with
  | none => none
  | some call =>
    if call.pc = CallState.waiting ∧ call.closed = true then
      some { l with calls := l.calls.set k { call with pc := CallState.returned } }
    else none

/-- The method `Close` of the listener: `closeOnce.Do` closes `connCh` the first time,
which panics the calls blocked in the send; the result is nil. -/
def ServerHandlerToListener.Close (l : ServerHandlerToListener) :
    Option Error × ServerHandlerToListener :=
  if l.closeOnce then (none, l)
  else
    (none,
      { l with
        closeOnce := true
        connChClosed := true
        connChCloses := l.connChCloses + 1
        calls := l.calls.map (fun call =>
          if call.pc = CallState.sending then { call with pc := CallState.panicked }
          else call) })

/-- The method `Addr`'s type `reverseTunnelAddr`. -/
structure reverseTunnelAddr where
  addr : String
deriving DecidableEq, Repr

/-- The method `Network` of `reverseTunnelAddr`. -/
def reverseTunnelAddr.Network (_a : reverseTunnelAddr) : String := "ssh-reversetunnel"

/-- The method `String` of `reverseTunnelAddr`. -/
def reverseTunnelAddr.String (a : reverseTunnelAddr) : String := a.addr

/-- The method `Addr` of the listener. -/
def ServerHandlerToListener.Addr (l : ServerHandlerToListener) : reverseTunnelAddr :=
  ⟨l.tunnelAddr⟩

/-- A move of one goroutine on the adapter: a call `HandleConnection(c)`
starts; an `Accept` receives from the sender `pick`; `Close()` is called on an
accepted connection `cc` and the wrapped `Close()` returns `err`; the call `k`
of `HandleConnection` gets past `cc.wait()`; `Close()` is called on the
listener. -/
inductive AdapterMove where
  | HandleConnection (c : Nat)
  | Accept (pick : Nat)
  | connClose (cc : connCloser) (err : Option Error)
  | HandleConnectionWait (k : Nat)
  | Close
deriving DecidableEq, Repr

/-- Whether `cc` is a connection that an `Accept` has returned: its call was
received from and wraps the same `Conn`. Only such a `connCloser` is in the
hands of a caller. -/
def ServerHandlerToListener.accepted (l : ServerHandlerToListener) (cc : connCloser) :
    Bool :=
  match l.calls[cc.call]? with
  | none => false
  | some call =>
    call.Conn == cc.Conn && (call.pc == CallState.waiting || call.pc == CallState.returned)

/-- One move of the adapter; a move the runtime blocks, or a `Close()` on a
connection nobody holds, leaves the state as it is. -/
def ServerHandlerToListener.step (l : ServerHandlerToListener) :
    AdapterMove → ServerHandlerToListener
  | .HandleConnection c => l.HandleConnection c
  | .Accept pick =>
    match l.Accept pick with
    | none => l
    | some (_, l1) => l1
  | .connClose cc err => if l.accepted cc then (connCloser.Close l cc err).2 else l
  | .HandleConnectionWait k =>
    match l.HandleConnectionWait k with
    | none => l
    | some l1 => l1
  | .Close => l.Close.2

/-- The adapter after a sequence of moves. -/
def ServerHandlerToListener.run (l : ServerHandlerToListener) :
    List AdapterMove → ServerHandlerToListener
  | [] => l
  | move :: rest => (l.step move).run rest

/-! ## Predicates used in the statements -/

/-- The pool `q` differs from `p` by handled events only: no lease was released, no
agent was added to the store, no count was added to the wait group, and the
configuration (with the connected proxies) is the same. -/
def AgentPool.onlyEvents (p q : AgentPool) : Prop :=
  q.released = p.released ∧ q.active.agents.Sublist p.active.agents ∧ q.wg ≤ p.wg ∧
    q.AgentPoolConfig = p.AgentPoolConfig

/-- The proxy identifiers of the agents in the active store, in store order;
`getIDFromPrincipals` gives the identifier of an agent from its principals. -/
def AgentPool.activeProxyIDs (getIDFromPrincipals : List String → String × Bool)
    (p : AgentPool) : List String :=
  p.active.agents.map (fun agent => (getIDFromPrincipals agent.principals).1)

/-- What holds of every call of `HandleConnection` at any time: the channel
`closed` is closed only by a call of `cc.Close()`, the call has returned only
if `closed` is closed, and `closed` is closed exactly when `closeOnce` has run. -/
def HandleCall.sound (call : HandleCall) : Prop :=
  (call.closed = true → 1 ≤ call.closeCalls) ∧
  (call.pc = CallState.returned → call.closed = true) ∧
  call.closeOnce = call.closed

/-! ## Sample data

Concrete agents, pools and collaborator answers on which the theorems below are
evaluated. -/

/-- A configuration that `CheckAndSetDefaults` accepts. -/
def sampleConfig : AgentPoolConfig :=
  { Client := some 1, AccessPoint := some 2, HostSigner := some 3, HostUUID := "host",
    LocalCluster := "leaf", Clock := none, KubeDialAddr := ⟨"", ""⟩, Server := none,
    Component := "node", ReverseTunnelServer := none, Resolver := some 4,
    Cluster := "root", FIPS := false, StateCallback := none,
    ConnectedProxies := some NewConnectedProxies }

/-- A pool as `NewAgentPool` makes it from `sampleConfig`. -/
def samplePool : AgentPool :=
  { AgentPoolConfig := { sampleConfig with Clock := some Clock.real }
    active := newAgentStore, proxyPeeringEnabled := false, wg := 0,
    stopped := [], released := [], backoffIncs := 0 }

/-- A first agent. -/
def agentA : Agent := ⟨1, ["proxy-a.root"]⟩

/-- A second agent. -/
def agentB : Agent := ⟨2, ["proxy-b.root"]⟩

/-- A third agent. -/
def agentC : Agent := ⟨3, ["proxy-c.root"]⟩

/-- A stand-in for `getIDFromPrincipals`: the first principal up to its first dot. -/
def sampleGetID (principals : List String) : String × Bool :=
  match principals with
  | [] => ("", false)
  | first :: _ => (String.mk (first.toList.takeWhile (fun c => c != '.')), true)

/-- The networking configuration with proxy peering off. -/
def peeringOff : Except Error ClusterNetworkingConfig := .ok ⟨ProxyPeering.Disabled, 300⟩

/-- The networking configuration with proxy peering on. -/
def peeringOn : Except Error ClusterNetworkingConfig := .ok ⟨ProxyPeering.Enabled, 300⟩

/-- A failed read of the networking configuration. -/
def peeringUnread : Except Error ClusterNetworkingConfig :=
  .error (Error.other "access point unavailable")

/-- A call of `handle` in which the lease `l` is ready at once, no event is
queued, the settings read `settings`, and `agent` is created and started. -/
def quietEnv (settings : Except Error ClusterNetworkingConfig) (l : Lease)
    (agent : Agent) : HandleEnv :=
  { leases := [LeaseSelect.lease l], drain := [DrainSelect.default], settings := settings,
    block := [], netConfig := settings.map some, resolved := .ok (some ⟨"proxy:3024", "tcp"⟩),
    NewAgent := fun _ => .ok agent, start := none }

/-- A pool with proxy peering on that holds `agentA`, as `handle` leaves it. -/
def peeringPool : AgentPool :=
  { samplePool with
    AgentPoolConfig :=
      { samplePool.AgentPoolConfig with ConnectedProxies := some ⟨["proxy-a"]⟩ }
    active := ⟨[agentA]⟩, proxyPeeringEnabled := true, wg := 1 }

/-- A pool with proxy peering off that holds `agentA`. -/
def classicPool : AgentPool :=
  { samplePool with active := ⟨[agentA]⟩, wg := 1 }

/-- A call of `handle` during which `agentA` reports `Closed` while the pool
waits for a lease; the lease 2 then arrives and `agentB` is created and started. -/
def reconnectEnv : HandleEnv :=
  { quietEnv peeringOff ⟨2⟩ agentB with
    leases := [LeaseSelect.event agentA AgentState.AgentClosed, LeaseSelect.lease ⟨2⟩] }

/-- A call of `handle` during which `agentA` reports `Closed` while the pool
waits for a lease, and the context is then cancelled. -/
def cancelledEnv : HandleEnv :=
  { quietEnv peeringOff ⟨2⟩ agentB with
    leases := [LeaseSelect.event agentA AgentState.AgentClosed,
      LeaseSelect.done Error.canceled] }

/-- A call of `handle` in which the lease 2 arrives at once and `agent.Start`
fails. -/
def startFailsEnv : HandleEnv :=
  { quietEnv peeringOff ⟨2⟩ agentB with start := some (Error.other "dial failed") }

/-- A dialer with the one authentication method that `newAgent` gives it. -/
def sampleDialer : agentDialer :=
  { client := 2, username := "host", authMethods := [⟨1⟩], fips := false }

/-- A dialer with three authentication methods. -/
def threeMethodDialer : agentDialer :=
  { client := 2, username := "host", authMethods := [⟨1⟩, ⟨2⟩, ⟨3⟩], fips := false }

/-- Answers in which every transport dial fails with `cause`. -/
def refusingEnv (cause : Error) : DialEnv :=
  { Find := .ok false, DialTimeout := fun _ _ => .error cause,
    NewHostKeyCallback := fun turn => .ok turn,
    NewClientConn := fun turn _ _ _ => .ok (turn, []) }

/-- Answers in which the transport dial fails in turn 0 and the handshake
succeeds from turn 1 on, with connection `10 + turn`. -/
def secondSucceedsEnv : DialEnv :=
  { Find := .ok true,
    DialTimeout := fun _ turn =>
      if turn = 0 then .error (Error.other "connection refused") else .ok turn,
    NewHostKeyCallback := fun turn => .ok turn,
    NewClientConn := fun turn _ _ _ => .ok (10 + turn, ["proxy-a.root"]) }

/-- A call of `handle` after proxy peering was switched on: the lease 3 is
ready at once, no event is queued, and while the pool waits for an agent to be
required `agentA` and then `agentB` report `Closed`; `agentC` is then created
and started. -/
def switchEnv : HandleEnv :=
  { quietEnv peeringOn ⟨3⟩ agentC with
    block := [BlockSelect.event agentA AgentState.AgentClosed peeringOn,
      BlockSelect.event agentB AgentState.AgentClosed peeringOn] }

/-! ## Closing the listener -/

/-- The adapter after `n` calls of `Close` on the listener, one after the other. -/
def ServerHandlerToListener.CloseTimes (l : ServerHandlerToListener) :
    Nat → ServerHandlerToListener
  | 0 => l
  | n + 1 => (l.Close.2).CloseTimes n

/-- What holds of the listener at any time: `connCh` is closed exactly when
`closeOnce` has run, and `close(l.connCh)` has run once if it has and never if
it has not. -/
def ServerHandlerToListener.onceSound (l : ServerHandlerToListener) : Prop :=
  l.connChClosed = l.closeOnce ∧ l.connChCloses = (if l.closeOnce then 1 else 0)

/-- A pool as `NewAgentPool` makes it from `sampleConfig` without a `Resolver`. -/
def unresolvedPool : AgentPool :=
  { samplePool with
    AgentPoolConfig := { samplePool.AgentPoolConfig with Resolver := none } }

/-! ## The pool loop -/

/-- What the collaborators answer during one turn of the loop of `start`:
`ctxErr` is the value of `p.ctx.Err()` at the top of the turn, `handle` what
they answer during the call of `handle`, `backoff` what the selects of
`waitForBackoff` pick. -/
structure StartEnv where
  ctxErr : Option Error
  handle : HandleEnv
  backoff : List BackoffSelect

/-- A call that the loop of `start` makes, with the error it returned. -/
inductive LoopCall where
  | handle (err : Option Error)
  | Inc
  | waitForBackoff (err : Option Error)
deriving DecidableEq, Repr

/-- The method `start`: the error it returns, the pool it leaves, and the calls its
loop made, in order. Both errors of a turn are only logged. -/
def AgentPool.start (getIDFromPrincipals : List String → String × Bool)
    (p : AgentPool) : List StartEnv → Option (Error × AgentPool × List LoopCall)
  | [] => none
  | env :: rest =>
    match env.ctxErr with
    | some err => some (trace.Wrap err, p, [])
    | none =>
      match p.handle getIDFromPrincipals env.handle with
      | none => none
      | some (err, p1) =>
        match AgentPool.waitForBackoff { p1 with backoffIncs := p1.backoffIncs + 1 }
            env.backoff with
        | none => none
        | some (err2, p2) =>
          match AgentPool.start getIDFromPrincipals p2 rest with
          | none => none
          | some (err3, p3, calls) =>
            some (err3, p3,
              [LoopCall.handle err, LoopCall.Inc, LoopCall.waitForBackoff err2] ++ calls)

/-! ## Selects on a finished context

Go picks one of the ready cases of a `select` at random, and takes `default`
only when no case is ready. The case `<-ctx.Done()` is ready exactly when the
context is finished, so with `ctxErr` the value of `ctx.Err()`: -/

/-- Whether a select of `waitForLease` can pick `sel`. -/
def LeaseSelect.possible (ctxErr : Option Error) : LeaseSelect → Bool
  | .done err => ctxErr == some err
  | .lease _ => true
  | .event _ _ => true

/-- Whether a select of the first loop of `processEvents` can pick `sel`. -/
def DrainSelect.possible (ctxErr : Option Error) : DrainSelect → Bool
  | .done err => ctxErr == some err
  | .event _ _ => true
  | .default => ctxErr == none

/-- Whether a select of the second loop of `processEvents` can pick `sel`. -/
def BlockSelect.possible (ctxErr : Option Error) : BlockSelect → Bool
  | .done err => ctxErr == some err
  | .event _ _ _ => true

/-- Whether a select of `waitForBackoff` can pick `sel`; `after` needs the
backoff to have elapsed. -/
def BackoffSelect.possible (ctxErr : Option Error) : BackoffSelect → Bool
  | .done err => ctxErr == some err
  | .after => true
  | .event _ _ => true

/-- The pool after handling the events `events` in order. -/
def AgentPool.handleEvents (p : AgentPool) : List (Agent × AgentState) → AgentPool
  | [] => p
  | (agent, state) :: rest => (p.handleEvent agent state).handleEvents rest

/-- A turn of the loop in which `agent` is added on lease `l` with proxy
peering off and the backoff then elapses. -/
def addTurn (l : Lease) (agent : Agent) : StartEnv :=
  { ctxErr := none, handle := quietEnv peeringOff l agent,
    backoff := [BackoffSelect.after] }

/-- A turn of the loop in which the `Resolver` fails, so that no agent is
created, and the backoff then elapses. -/
def resolverFailsTurn (l : Lease) : StartEnv :=
  { ctxErr := none,
    handle :=
      { quietEnv peeringOff l agentC with
        resolved := .error (Error.other "no proxy address") },
    backoff := [BackoffSelect.after] }

/-- A turn of the loop that finds the context cancelled. -/
def cancelledTurn : StartEnv :=
  { ctxErr := some Error.canceled, handle := quietEnv peeringOff ⟨0⟩ agentC, backoff := [] }

/-- A turn of the loop in which the context is cancelled while `handle` waits
for a lease, and `waitForBackoff` picks the cancellation too. -/
def cancelInHandleTurn : StartEnv :=
  { ctxErr := none, handle := cancelledEnv,
    backoff := [BackoffSelect.done Error.canceled] }

/-- The calls that the loop of `start` makes in turns whose `handle` and
`waitForBackoff` return the errors `turns`, in order: in each turn one call of
`handle`, one `backoff.Inc()` and one call of `waitForBackoff`. -/
def turnCalls : List (Option Error × Option Error) → List LoopCall
  | [] => []
  | (err, err2) :: rest =>
    [LoopCall.handle err, LoopCall.Inc, LoopCall.waitForBackoff err2] ++ turnCalls rest

/-- The sample pool after a turn that added `agentA` and a turn in which the
`Resolver` failed and the lease 2 was released. -/
def afterTwoTurns : AgentPool :=
  { samplePool with active := ⟨[agentA]⟩, wg := 1, released := [⟨2⟩], backoffIncs := 2 }

/-! # Theorems -/

/-! ## The store and the loop of `disconnectAgents` -/

theorem poplen_one_nil (s : agentStore) (h : s.agents = []) : s.poplen 1 = none := by
  simp [agentStore.poplen, h]

theorem poplen_one_single (s : agentStore) (a : Agent) (h : s.agents = [a]) :
    s.poplen 1 = none := by
  simp [agentStore.poplen, h]

theorem poplen_one_cons (s : agentStore) (a b : Agent) (rest : List Agent)
    (h : s.agents = a :: b :: rest) : s.poplen 1 = some (a, ⟨b :: rest⟩) := by
  simp [agentStore.poplen, h]

/-- The loop of `disconnectAgents` with enough fuel pops all agents but the last one,
oldest first, and launches `Stop` on each. -/
theorem disconnectAgentsLoop_eq (fuel : Nat) (p : AgentPool)
    (h : p.active.agents.length ≤ fuel) :
    p.disconnectAgentsLoop fuel =
      { p with
        active := ⟨p.active.agents.drop (p.active.agents.length - 1)⟩
        stopped := p.stopped ++ p.active.agents.take (p.active.agents.length - 1) } := by
  induction fuel generalizing p with
  | zero =>
    obtain ⟨c, ⟨l⟩, f, w, st, r, b⟩ := p
    have hl : l = [] := List.length_eq_zero.mp (Nat.le_zero.mp h)
    subst hl
    simp [AgentPool.disconnectAgentsLoop]
  | succ fuel ih =>
    obtain ⟨c, ⟨l⟩, f, w, st, r, b⟩ := p
    match l, h with
    | [], _ => simp [AgentPool.disconnectAgentsLoop, agentStore.poplen]
    | [a], _ => simp [AgentPool.disconnectAgentsLoop, agentStore.poplen]
    | a :: b' :: rest, h =>
      have h' : (b' :: rest).length ≤ fuel := by simpa using h
      simp only [AgentPool.disconnectAgentsLoop, agentStore.poplen]
      simp only [List.length_cons, gt_iff_lt, Nat.lt_add_left_iff_pos, Nat.zero_lt_succ,
        ↓reduceIte]
      rw [ih _ h']
      simp

theorem disconnectAgents_eq (p : AgentPool) :
    p.disconnectAgents =
      { p with
        active := ⟨p.active.agents.drop (p.active.agents.length - 1)⟩
        stopped := p.stopped ++ p.active.agents.take (p.active.agents.length - 1) } :=
  disconnectAgentsLoop_eq _ p (Nat.le_refl _)

/-- The definition by fuel is the loop of the source: `disconnectAgents` returns when
`poplen(1)` reports `!ok`, and otherwise stops the popped agent and goes on. -/
theorem disconnectAgents_unfold (p : AgentPool) :
    p.disconnectAgents =
      match p.active.poplen 1 with
      | none => p
      | some (agent, store) =>
        AgentPool.disconnectAgents
          { p with active := store, stopped := p.stopped ++ [agent] } := by
  obtain ⟨c, ⟨l⟩, f, w, st, r, b⟩ := p
  match l with
  | [] => simp [disconnectAgents_eq, agentStore.poplen]
  | [a] => simp [disconnectAgents_eq, agentStore.poplen]
  | a :: b' :: rest => simp [disconnectAgents_eq, agentStore.poplen]

theorem disconnectAgents_len (p : AgentPool) :
    p.disconnectAgents.active.len = min p.active.len 1 := by
  rw [disconnectAgents_eq]
  simp only [agentStore.len, List.length_drop]
  omega

theorem disconnectAgents_wg (p : AgentPool) : p.disconnectAgents.wg = p.wg := by
  rw [disconnectAgents_eq]

theorem disconnectAgents_flag (p : AgentPool) :
    p.disconnectAgents.proxyPeeringEnabled = p.proxyPeeringEnabled := by
  rw [disconnectAgents_eq]

theorem disconnectAgents_config (p : AgentPool) :
    p.disconnectAgents.AgentPoolConfig = p.AgentPoolConfig := by
  rw [disconnectAgents_eq]

theorem updateSettings_error (p : AgentPool) (err : Error) :
    p.updateSettings (.error err) = (some err, p) := rfl

theorem updateSettings_active (p : AgentPool)
    (config : Except Error ClusterNetworkingConfig) :
    (p.updateSettings config).2.active = p.active ∧
    (p.updateSettings config).2.stopped = p.stopped ∧
    (p.updateSettings config).2.wg = p.wg ∧
    (p.updateSettings config).2.released = p.released ∧
    (p.updateSettings config).2.AgentPoolConfig = p.AgentPoolConfig := by
  cases config with
  | error err => simp [AgentPool.updateSettings]
  | ok config =>
    simp only [AgentPool.updateSettings]
    split <;> simp

/-! ## What handling events can change -/

theorem onlyEvents_refl (p : AgentPool) : p.onlyEvents p :=
  ⟨rfl, List.Sublist.refl _, Int.le_refl _, rfl⟩

theorem onlyEvents_trans {p q r : AgentPool} (h1 : p.onlyEvents q) (h2 : q.onlyEvents r) :
    p.onlyEvents r :=
  ⟨h2.1.trans h1.1, h2.2.1.trans h1.2.1, Int.le_trans h2.2.2.1 h1.2.2.1,
    h2.2.2.2.trans h1.2.2.2⟩

theorem handleEvent_onlyEvents (p : AgentPool) (agent : Agent) (state : AgentState) :
    p.onlyEvents (p.handleEvent agent state) := by
  cases state with
  | AgentConnecting => exact onlyEvents_refl p
  | AgentConnected => exact onlyEvents_refl p
  | AgentClosed =>
    simp only [AgentPool.handleEvent, agentStore.remove]
    split
    · rename_i store heq
      simp only [Prod.mk.injEq] at heq
      refine ⟨rfl, ?_, ?_, rfl⟩
      · rw [← heq.1]
        exact List.filter_sublist _
      · simp
    · rename_i store heq
      simp only [Prod.mk.injEq] at heq
      refine ⟨rfl, ?_, Int.le_refl _, rfl⟩
      rw [← heq.1]
      exact List.filter_sublist _

theorem isAgentRequired_onlyEvents (p : AgentPool)
    (config : Except Error ClusterNetworkingConfig) :
    p.onlyEvents (p.isAgentRequired config).2 := by
  obtain ⟨hact, -, hwg, hrel, hcfg⟩ := updateSettings_active p config
  simp only [AgentPool.isAgentRequired]
  split
  · exact ⟨hrel, by rw [hact], by rw [hwg], hcfg⟩
  · rw [disconnectAgents_eq]
    refine ⟨hrel, ?_, by simp [hwg], hcfg⟩
    simp only [hact]
    exact List.drop_sublist _ _

theorem waitForLease_onlyEvents (sched : List LeaseSelect) (p : AgentPool)
    (r : Except Error Lease) (q : AgentPool) (h : p.waitForLease sched = some (r, q)) :
    p.onlyEvents q := by
  induction sched generalizing p with
  | nil => simp [AgentPool.waitForLease] at h
  | cons sel rest ih =>
    cases sel with
    | done err =>
      simp only [AgentPool.waitForLease, Option.some.injEq, Prod.mk.injEq] at h
      rw [← h.2]
      exact onlyEvents_refl p
    | lease l =>
      simp only [AgentPool.waitForLease, Option.some.injEq, Prod.mk.injEq] at h
      rw [← h.2]
      exact onlyEvents_refl p
    | event agent state =>
      simp only [AgentPool.waitForLease] at h
      exact onlyEvents_trans (handleEvent_onlyEvents p agent state) (ih _ h)

theorem processEventsDrain_onlyEvents (sched : List DrainSelect) (p : AgentPool)
    (r : Option Error) (q : AgentPool) (h : p.processEventsDrain sched = some (r, q)) :
    p.onlyEvents q := by
  induction sched generalizing p with
  | nil => simp [AgentPool.processEventsDrain] at h
  | cons sel rest ih =>
    cases sel with
    | done err =>
      simp only [AgentPool.processEventsDrain, Option.some.injEq, Prod.mk.injEq] at h
      rw [← h.2]
      exact onlyEvents_refl p
    | default =>
      simp only [AgentPool.processEventsDrain, Option.some.injEq, Prod.mk.injEq] at h
      rw [← h.2]
      exact onlyEvents_refl p
    | event agent state =>
      simp only [AgentPool.processEventsDrain] at h
      exact onlyEvents_trans (handleEvent_onlyEvents p agent state) (ih _ h)

theorem processEventsBlock_onlyEvents (sched : List BlockSelect) (p : AgentPool)
    (r : Option Error) (q : AgentPool) (h : p.processEventsBlock sched = some (r, q)) :
    p.onlyEvents q := by
  induction sched generalizing p with
  | nil => simp [AgentPool.processEventsBlock] at h
  | cons sel rest ih =>
    cases sel with
    | done err =>
      simp only [AgentPool.processEventsBlock, Option.some.injEq, Prod.mk.injEq] at h
      rw [← h.2]
      exact onlyEvents_refl p
    | event agent state settings =>
      simp only [AgentPool.processEventsBlock] at h
      have h1 := handleEvent_onlyEvents p agent state
      have h2 := isAgentRequired_onlyEvents (p.handleEvent agent state) settings
      split at h
      · rename_i p1 heq
        simp only [Option.some.injEq, Prod.mk.injEq] at h
        rw [heq] at h2
        rw [← h.2]
        exact onlyEvents_trans h1 h2
      · rename_i p1 heq
        rw [heq] at h2
        exact onlyEvents_trans h1 (onlyEvents_trans h2 (ih _ h))

theorem processEvents_onlyEvents (p : AgentPool) (drain : List DrainSelect)
    (settings : Except Error ClusterNetworkingConfig) (block : List BlockSelect)
    (r : Option Error) (q : AgentPool)
    (h : p.processEvents drain settings block = some (r, q)) : p.onlyEvents q := by
  simp only [AgentPool.processEvents] at h
  split at h
  · simp at h
  · rename_i err p1 heq
    simp only [Option.some.injEq, Prod.mk.injEq] at h
    rw [← h.2]
    exact processEventsDrain_onlyEvents _ _ _ _ heq
  · rename_i p1 heq
    have h1 := processEventsDrain_onlyEvents _ _ _ _ heq
    have h2 := isAgentRequired_onlyEvents p1 settings
    split at h
    · rename_i p2 heq2
      simp only [Option.some.injEq, Prod.mk.injEq] at h
      rw [heq2] at h2
      rw [← h.2]
      exact onlyEvents_trans h1 h2
    · rename_i p2 heq2
      rw [heq2] at h2
      exact onlyEvents_trans h1 (onlyEvents_trans h2 (processEventsBlock_onlyEvents _ _ _ _ h))

theorem handleEvent_config (p : AgentPool) (agent : Agent) (state : AgentState) :
    (p.handleEvent agent state).AgentPoolConfig = p.AgentPoolConfig :=
  (handleEvent_onlyEvents p agent state).2.2.2

theorem setProxyIDs_fields (p : AgentPool) (ids : List String) :
    (p.setProxyIDs ids).active = p.active ∧ (p.setProxyIDs ids).wg = p.wg ∧
    (p.setProxyIDs ids).released = p.released :=
  ⟨rfl, rfl, rfl⟩

theorem updateConnectedProxies_fields (getID : List String → String × Bool)
    (p : AgentPool) :
    (p.updateConnectedProxies getID).active = p.active ∧
    (p.updateConnectedProxies getID).wg = p.wg ∧
    (p.updateConnectedProxies getID).released = p.released := by
  simp only [AgentPool.updateConnectedProxies]
  split
  · exact setProxyIDs_fields p []
  · split
    · exact ⟨rfl, rfl, rfl⟩
    · exact setProxyIDs_fields p _

theorem updateConnectedProxies_flag (getID : List String → String × Bool)
    (p : AgentPool) :
    (p.updateConnectedProxies getID).proxyPeeringEnabled = p.proxyPeeringEnabled := by
  simp only [AgentPool.updateConnectedProxies, AgentPool.setProxyIDs]
  split
  · rfl
  · split <;> rfl

/-! ## The wait group -/

/-- C1, on the code. On a pool as `NewAgentPool` makes it, `handle` adds
`agentA` and `agentB` with proxy peering off: the wait group holds two counts
for two stored agents. Proxy peering is then switched on. In the next call of
`handle`, `isAgentRequired` pops the older agent and launches its `Stop`
without a `wg.Done()`: the store holds one agent and the wait group still two
counts. The `Closed` event of the popped agent finds nothing to remove and
releases no count; after the `Closed` event of `agentB` the call adds
`agentC`. When `agentC` has closed too, every agent that was added is closed
and its event handled, the store is empty, and the wait group still holds one
count, on which `wg.Wait()` blocks. -/
theorem C1_wait_group_count_leaks :
    ∃ p1 p2 p3 : AgentPool,
      NewAgentPool sampleConfig none none = .ok samplePool ∧
      samplePool.handle sampleGetID (quietEnv peeringOff ⟨1⟩ agentA) = some (none, p1) ∧
      p1.handle sampleGetID (quietEnv peeringOff ⟨2⟩ agentB) = some (none, p2) ∧
      p2.handle sampleGetID switchEnv = some (none, p3) ∧
      p2.active.agents = [agentA, agentB] ∧ p2.wg = 2 ∧
      (p2.isAgentRequired peeringOn).2.active.agents = [agentB] ∧
      (p2.isAgentRequired peeringOn).2.stopped = [agentA] ∧
      (p2.isAgentRequired peeringOn).2.wg = 2 ∧
      p3.active.agents = [agentC] ∧ p3.stopped = [agentA] ∧ p3.wg = 2 ∧
      (p3.handleEvent agentC AgentState.AgentClosed).active.agents = [] ∧
      (p3.handleEvent agentC AgentState.AgentClosed).wg = 1 :=
  ⟨_, _, _, by decide, rfl, rfl, rfl, by decide⟩

/-! ## One call of `handle` -/

/-- C2, as stated, fails. First run: `agentA` closes while `handle` waits for a
lease, then `agentB` is added; the store holds one agent before and one agent
after, it has not grown by one. Second run: `agentA` closes while `handle`
waits, then the context is cancelled; `waitForLease` fails and the store,
which held `agentA`, is empty. -/
theorem C2_store_changes_while_waiting :
    (∃ p' : AgentPool,
      classicPool.handle sampleGetID reconnectEnv = some (none, p') ∧
      p'.active.agents = [agentB] ∧ p'.active.len = classicPool.active.len) ∧
    (∃ p' : AgentPool,
      classicPool.waitForLease cancelledEnv.leases = some (.error Error.canceled, p') ∧
      classicPool.handle sampleGetID cancelledEnv = some (some Error.canceled, p') ∧
      p'.active.agents = [] ∧ classicPool.active.agents = [agentA] ∧
      p'.released = classicPool.released) :=
  ⟨⟨_, rfl, by decide⟩, ⟨_, rfl, rfl, by decide⟩⟩

/-- C2, amended. In every call of `handle`, with `p2` the pool as the events
handled during the call leave it (no lease released, no agent added, no count
added to the wait group):
* if `waitForLease` fails, `handle` returns its error and leaves `p2`;
* if a lease is obtained and `processEvents`, `newAgent` or `agent.Start`
  fails, `handle` returns that error and leaves `p2` with one `Release()` of
  the lease recorded, the store and the wait group of `p2` untouched;
* if all three succeed, `handle` returns nil, records no `Release()`, appends
  exactly the new agent to the store of `p2` and adds one to its wait group. -/
theorem C2_handle_lease_accounting (getID : List String → String × Bool)
    (p : AgentPool) (env : HandleEnv) :
    (∀ err p2, p.waitForLease env.leases = some (.error err, p2) →
      p.handle getID env = some (some err, p2) ∧ p.onlyEvents p2) ∧
    (∀ lease p1 p2 err, p.waitForLease env.leases = some (.ok lease, p1) →
      (p1.processEvents env.drain env.settings env.block = some (some err, p2) ∨
       (p1.processEvents env.drain env.settings env.block = some (none, p2) ∧
          p2.newAgent env.netConfig env.resolved env.NewAgent lease = some (.error err)) ∨
       (p1.processEvents env.drain env.settings env.block = some (none, p2) ∧
          (∃ agent, p2.newAgent env.netConfig env.resolved env.NewAgent lease
            = some (.ok agent)) ∧
          env.start = some err)) →
      p.handle getID env
        = some (some err, { p2 with released := p2.released ++ [lease] }) ∧
      p.onlyEvents p2 ∧
      p2.released ++ [lease] = p.released ++ [lease]) ∧
    (∀ lease p1 p2 agent, p.waitForLease env.leases = some (.ok lease, p1) →
      p1.processEvents env.drain env.settings env.block = some (none, p2) →
      p2.newAgent env.netConfig env.resolved env.NewAgent lease = some (.ok agent) →
      env.start = none →
      ∃ p', p.handle getID env = some (none, p') ∧
        p'.released = p.released ∧
        p'.active.agents = p2.active.agents ++ [agent] ∧
        p'.active.len = p2.active.len + 1 ∧
        p'.wg = p2.wg + 1 ∧
        p.onlyEvents p2) := by
  refine ⟨?_, ?_, ?_⟩
  · intro err p2 h
    exact ⟨by simp [AgentPool.handle, h, trace.Wrap], waitForLease_onlyEvents _ _ _ _ h⟩
  · intro lease p1 p2 err h hfail
    have h1 := waitForLease_onlyEvents _ _ _ _ h
    have hev : p1.onlyEvents p2 := by
      rcases hfail with hp | ⟨hp, -⟩ | ⟨hp, -⟩ <;>
        exact processEvents_onlyEvents _ _ _ _ _ _ hp
    have h2 := onlyEvents_trans h1 hev
    refine ⟨?_, h2, by rw [h2.1]⟩
    rcases hfail with hp | ⟨hp, hn⟩ | ⟨hp, ⟨agent, hn⟩, hs⟩
    · simp [AgentPool.handle, h, AgentPool.handleAttempt, hp, trace.Wrap]
    · simp [AgentPool.handle, h, AgentPool.handleAttempt, hp, hn, trace.Wrap]
    · simp [AgentPool.handle, h, AgentPool.handleAttempt, hp, hn, hs, trace.Wrap]
  · intro lease p1 p2 agent h hp hn hs
    have h1 := waitForLease_onlyEvents _ _ _ _ h
    have h2 := onlyEvents_trans h1 (processEvents_onlyEvents _ _ _ _ _ _ hp)
    have hh : p.handle getID env = some (none, AgentPool.updateConnectedProxies getID
        { p2 with active := p2.active.add agent, wg := p2.wg + 1 }) := by
      simp only [AgentPool.handle, h, AgentPool.handleAttempt, hp, hn, hs]
    obtain ⟨ha, hw, hr⟩ := updateConnectedProxies_fields getID
      { p2 with active := p2.active.add agent, wg := p2.wg + 1 }
    refine ⟨_, hh, ?_, ?_, ?_, ?_, h2⟩
    · rw [hr]
      exact h2.1
    · rw [ha]
      rfl
    · rw [ha]
      simp [agentStore.len, agentStore.add]
    · rw [hw]

/-- C2, amended, on a call in which `agent.Start` fails after the lease 2 was
obtained: the lease is released once and `agentA` alone stays in the store. -/
theorem C2_handle_lease_accounting_witness :
    classicPool.handle sampleGetID startFailsEnv
      = some (some (Error.other "dial failed"),
          { classicPool with released := classicPool.released ++ [⟨2⟩] }) :=
  ((C2_handle_lease_accounting sampleGetID classicPool startFailsEnv).2.1
    ⟨2⟩ classicPool classicPool (Error.other "dial failed") (by decide)
    (Or.inr (Or.inr ⟨by decide, ⟨agentB, by decide⟩, by decide⟩))).1

/-! ## Whether an agent is required -/

/-- C3. Postcondition of `isAgentRequired` on a store of `n` agents, with the
flag as the settings refresh leaves it: with proxy peering off the result is
true, the store is unchanged and no agent is stopped; with proxy peering on the
store is left with `min n 1` agents, the agents taken out of it are exactly the
ones on which `Stop` is launched, and the result is true exactly when `n = 0`. -/
theorem C3_isAgentRequired_postcondition (p : AgentPool)
    (config : Except Error ClusterNetworkingConfig) :
    ((p.updateSettings config).2.proxyPeeringEnabled = false →
      (p.isAgentRequired config).1 = true ∧
      (p.isAgentRequired config).2.active = p.active ∧
      (p.isAgentRequired config).2.stopped = p.stopped) ∧
    ((p.updateSettings config).2.proxyPeeringEnabled = true →
      (p.isAgentRequired config).2.active.len = min p.active.len 1 ∧
      (∃ removed : List Agent,
        p.active.agents = removed ++ (p.isAgentRequired config).2.active.agents ∧
        (p.isAgentRequired config).2.stopped = p.stopped ++ removed) ∧
      ((p.isAgentRequired config).1 = true ↔ p.active.len = 0) ∧
      ((p.isAgentRequired config).1 = false ↔ 1 ≤ p.active.len)) := by
  obtain ⟨hact, hstop, -, -, -⟩ := updateSettings_active p config
  constructor
  · intro h
    simp [AgentPool.isAgentRequired, h, hact, hstop]
  · intro h
    simp only [AgentPool.isAgentRequired, h, Bool.not_true, Bool.false_eq_true, ↓reduceIte]
    refine ⟨?_, ?_, ?_, ?_⟩
    · rw [disconnectAgents_len, hact]
    · refine ⟨p.active.agents.take (p.active.agents.length - 1), ?_, ?_⟩
      · rw [disconnectAgents_eq, hact]
        simp
      · rw [disconnectAgents_eq, hact, hstop]
    · rw [disconnectAgents_len, hact]
      simp only [decide_eq_true_eq]
      omega
    · rw [disconnectAgents_len, hact]
      simp only [decide_eq_false_iff_not]
      omega

/-- C3 on a store of three agents with proxy peering switched on: one agent is
left, the two others are stopped and no new agent is required. -/
theorem C3_isAgentRequired_postcondition_witness :
    (({ samplePool with active := ⟨[agentA, agentB, agentC]⟩, wg := 3 } : AgentPool).isAgentRequired
        peeringOn).2.active.len = 1 ∧
    (({ samplePool with active := ⟨[agentA, agentB, agentC]⟩, wg := 3 } : AgentPool).isAgentRequired
        peeringOn).1 = false :=
  have h := (C3_isAgentRequired_postcondition
    { samplePool with active := ⟨[agentA, agentB, agentC]⟩, wg := 3 } peeringOn).2 (by decide)
  ⟨h.1, h.2.2.2.mpr (by decide)⟩

/-- C4, as stated, fails: with proxy peering on and a store holding `agentA`
(added first) and `agentB`, the agent that `disconnectAgents` leaves in the
store is `agentB`, not the first one added, and `agentA` is the one stopped. -/
theorem C4_first_added_is_not_kept :
    (AgentPool.disconnectAgents
        { samplePool with
          active := ⟨[agentA, agentB]⟩, proxyPeeringEnabled := true, wg := 2 }).active.agents
      = [agentB] ∧
    (AgentPool.disconnectAgents
        { samplePool with
          active := ⟨[agentA, agentB]⟩, proxyPeeringEnabled := true, wg := 2 }).active.agents
      ≠ [agentA] ∧
    (AgentPool.disconnectAgents
        { samplePool with
          active := ⟨[agentA, agentB]⟩, proxyPeeringEnabled := true, wg := 2 }).stopped
      = [agentA] := by
  decide

/-- C4, amended. On a store of two or more agents in insertion order, the
single agent that `disconnectAgents` leaves in the store is the last one added
(what `last()` returned before the call), and `Stop` is launched on every
agent added before it, oldest first. -/
theorem C4_disconnectAgents_keeps_last_added (p : AgentPool) (h : 2 ≤ p.active.len) :
    (p.disconnectAgents.active.agents.map some = [p.active.last]) ∧
    p.disconnectAgents.stopped = p.stopped ++ p.active.agents.dropLast ∧
    p.active.agents = p.active.agents.dropLast ++ p.disconnectAgents.active.agents := by
  obtain ⟨c, ⟨l⟩, f, w, st, r, b⟩ := p
  simp only [agentStore.len] at h
  have hne : l ≠ [] := by
    intro hl
    simp [hl] at h
  rw [disconnectAgents_eq]
  simp only [agentStore.last]
  have hd : l.dropLast = l.take (l.length - 1) := List.dropLast_eq_take l
  have hl : l.drop (l.length - 1) = [l.getLast hne] := by
    have := List.dropLast_append_getLast hne
    rw [hd] at this
    have h2 := List.take_append_drop (l.length - 1) l
    have h3 : List.take (l.length - 1) l ++ [l.getLast hne]
        = List.take (l.length - 1) l ++ List.drop (l.length - 1) l := by rw [this, h2]
    exact (List.append_cancel_left h3).symm
  refine ⟨?_, ?_, ?_⟩
  · rw [hl, List.getLast?_eq_getLast l hne]
    rfl
  · rw [hd]
  · rw [hd]
    exact (List.take_append_drop _ _).symm

/-- C4, amended, on three agents added in the order A, B, C: C stays. -/
theorem C4_disconnectAgents_keeps_last_added_witness :
    (AgentPool.disconnectAgents
        { samplePool with
          active := ⟨[agentA, agentB, agentC]⟩, proxyPeeringEnabled := true,
          wg := 3 }).active.agents.map some = [some agentC] :=
  (C4_disconnectAgents_keeps_last_added
    { samplePool with
      active := ⟨[agentA, agentB, agentC]⟩, proxyPeeringEnabled := true, wg := 3 }
    (by decide)).1

/-- C5, as stated, fails: on a pool with proxy peering on that holds one agent,
a failed read of the networking configuration leaves `proxyPeeringEnabled`
true, and `isAgentRequired` returns false. -/
theorem C5_failed_read_keeps_peering_on :
    (peeringPool.isAgentRequired peeringUnread).2.proxyPeeringEnabled = true ∧
    (peeringPool.isAgentRequired peeringUnread).1 = false := by
  decide

/-- C5, amended. When reading the cluster networking configuration fails,
`isAgentRequired` keeps the value `proxyPeeringEnabled` had and acts on it: if
it was false the call returns true and changes nothing in the pool; if it was
true the call prunes the store with `disconnectAgents` and returns whether the
store is then empty. -/
theorem C5_failed_read_keeps_flag (p : AgentPool) (err : Error) :
    (p.isAgentRequired (.error err)).2.proxyPeeringEnabled = p.proxyPeeringEnabled ∧
    (p.proxyPeeringEnabled = false → p.isAgentRequired (.error err) = (true, p)) ∧
    (p.proxyPeeringEnabled = true →
      p.isAgentRequired (.error err)
        = (decide (p.disconnectAgents.active.len < 1), p.disconnectAgents)) := by
  refine ⟨?_, ?_, ?_⟩
  · simp only [AgentPool.isAgentRequired, updateSettings_error]
    split
    · rfl
    · exact disconnectAgents_flag p
  · intro h
    simp [AgentPool.isAgentRequired, updateSettings_error, h]
  · intro h
    simp [AgentPool.isAgentRequired, updateSettings_error, h]

/-- C5, amended, on a fresh pool, whose flag is false: the failed read asks for
an agent and changes nothing. -/
theorem C5_failed_read_keeps_flag_witness :
    samplePool.isAgentRequired peeringUnread = (true, samplePool) :=
  (C5_failed_read_keeps_flag samplePool (Error.other "access point unavailable")).2.1
    (by decide)

/-! ## Connected proxies -/

theorem isAgentRequired_true_peering (p q : AgentPool)
    (config : Except Error ClusterNetworkingConfig)
    (h : p.isAgentRequired config = (true, q)) (hq : q.proxyPeeringEnabled = true) :
    q.active.agents = [] := by
  simp only [AgentPool.isAgentRequired] at h
  split at h
  · rename_i hflag
    simp only [Prod.mk.injEq, true_and] at h
    rw [h] at hflag
    simp [hq] at hflag
  · simp only [Prod.mk.injEq, decide_eq_true_eq] at h
    rw [← h.2]
    exact List.length_eq_zero.mp (Nat.lt_one_iff.mp h.1)

theorem processEventsBlock_nil_peering (sched : List BlockSelect) (p q : AgentPool)
    (h : p.processEventsBlock sched = some (none, q)) (hq : q.proxyPeeringEnabled = true) :
    q.active.agents = [] := by
  induction sched generalizing p with
  | nil => simp [AgentPool.processEventsBlock] at h
  | cons sel rest ih =>
    cases sel with
    | done err => simp [AgentPool.processEventsBlock] at h
    | event agent state settings =>
      simp only [AgentPool.processEventsBlock] at h
      split at h
      · rename_i p1 heq
        simp only [Option.some.injEq, Prod.mk.injEq, true_and] at h
        rw [h] at heq
        exact isAgentRequired_true_peering _ _ _ heq hq
      · exact ih _ h

theorem processEvents_nil_peering (p q : AgentPool) (drain : List DrainSelect)
    (settings : Except Error ClusterNetworkingConfig) (block : List BlockSelect)
    (h : p.processEvents drain settings block = some (none, q))
    (hq : q.proxyPeeringEnabled = true) : q.active.agents = [] := by
  simp only [AgentPool.processEvents] at h
  split at h
  · simp at h
  · simp [trace.Wrap] at h
  · split at h
    · rename_i p2 heq2
      simp only [Option.some.injEq, Prod.mk.injEq, true_and] at h
      rw [h] at heq2
      exact isAgentRequired_true_peering _ _ _ heq2 hq
    · exact processEventsBlock_nil_peering _ _ _ h hq

/-- A call of `handle` that returns nil went through all its steps. -/
theorem handle_nil_inv (getID : List String → String × Bool) (p p' : AgentPool)
    (env : HandleEnv) (h : p.handle getID env = some (none, p')) :
    ∃ lease p1 p2 agent,
      p.waitForLease env.leases = some (.ok lease, p1) ∧
      p1.processEvents env.drain env.settings env.block = some (none, p2) ∧
      p2.newAgent env.netConfig env.resolved env.NewAgent lease = some (.ok agent) ∧
      env.start = none ∧
      p' = AgentPool.updateConnectedProxies getID
        { p2 with active := p2.active.add agent, wg := p2.wg + 1 } := by
  simp only [AgentPool.handle] at h
  split at h
  · simp at h
  · simp at h
  · rename_i lease p1 hw
    simp only [AgentPool.handleAttempt] at h
    split at h
    · simp at h
    · simp at h
    · rename_i agent p2 ha
      split at ha
      · simp at ha
      · simp at ha
      · rename_i p2' hp
        split at ha
        · simp at ha
        · simp at ha
        · rename_i agent' hn
          split at ha
          · simp at ha
          · rename_i hs
            simp only [Option.some.injEq, Prod.mk.injEq, Except.ok.injEq] at ha
            simp only [Option.some.injEq, Prod.mk.injEq, true_and] at h
            obtain ⟨rfl, rfl⟩ := ha
            exact ⟨lease, p1, _, _, hw, hp, hn, hs, h.symm⟩

/-- C6, on the code. On a pool as `NewAgentPool` makes it, `handle` adds
`agentA` with proxy peering on and calls `updateConnectedProxies`: the
connected proxies are `proxy-a`, the identifier of the one agent in the store.
The `Closed` event of `agentA` is then handled: `handleEvent` removes the
agent from the store and does not call `updateConnectedProxies`, so the store
is empty and the connected proxies are still `proxy-a`, the identifier of an
agent the pool no longer holds. -/
theorem C6_closed_agent_stays_connected :
    NewAgentPool sampleConfig none none = .ok samplePool ∧
    samplePool.handle sampleGetID (quietEnv peeringOn ⟨1⟩ agentA) = some (none, peeringPool) ∧
    peeringPool.ConnectedProxies = some ⟨peeringPool.activeProxyIDs sampleGetID⟩ ∧
    (peeringPool.handleEvent agentA AgentState.AgentClosed).proxyPeeringEnabled = true ∧
    (peeringPool.handleEvent agentA AgentState.AgentClosed).active.agents = [] ∧
    (peeringPool.handleEvent agentA AgentState.AgentClosed).activeProxyIDs sampleGetID = [] ∧
    (peeringPool.handleEvent agentA AgentState.AgentClosed).ConnectedProxies
      = some ⟨["proxy-a"]⟩ := by
  decide

/-- Where the connected proxies do follow the store, and where not. With proxy
peering on, after `handle` has added an agent the store holds that agent alone
and the connected proxies are exactly the proxy identifiers of the agents in
the store; `handleEvent` leaves the connected proxies as they are whatever it
removes; with proxy peering off `updateConnectedProxies` sets them to the
empty list. -/
theorem connected_proxies_follow_added_agent (getID : List String → String × Bool) :
    (∀ (p p' : AgentPool) (env : HandleEnv),
      p.handle getID env = some (none, p') → p'.proxyPeeringEnabled = true →
      p.ConnectedProxies ≠ none →
      p'.ConnectedProxies = some ⟨p'.activeProxyIDs getID⟩ ∧
      ∃ agent, p'.active.agents = [agent] ∧
        p'.ConnectedProxies = some ⟨[(getID agent.principals).1]⟩) ∧
    (∀ (p : AgentPool) (agent : Agent) (state : AgentState),
      (p.handleEvent agent state).ConnectedProxies = p.ConnectedProxies) ∧
    (∀ p : AgentPool, p.proxyPeeringEnabled = false → p.ConnectedProxies ≠ none →
      (p.updateConnectedProxies getID).ConnectedProxies = some ⟨[]⟩) := by
  refine ⟨?_, ?_, ?_⟩
  · intro p p' env h hflag hcp
    obtain ⟨lease, p1, p2, agent, hw, hp, -, -, rfl⟩ := handle_nil_inv getID p p' env h
    have hev := onlyEvents_trans (waitForLease_onlyEvents _ _ _ _ hw)
      (processEvents_onlyEvents _ _ _ _ _ _ hp)
    have hcfg : p2.AgentPoolConfig.ConnectedProxies = p.AgentPoolConfig.ConnectedProxies := by
      rw [hev.2.2.2]
    have hflag2 : p2.proxyPeeringEnabled = true := by
      rw [updateConnectedProxies_flag] at hflag
      exact hflag
    have hempty := processEvents_nil_peering _ _ _ _ _ hp hflag2
    obtain ⟨c, hc⟩ := Option.ne_none_iff_exists'.mp hcp
    simp only [AgentPool.ConnectedProxies] at hc
    have hres : (AgentPool.updateConnectedProxies getID
        { p2 with active := p2.active.add agent, wg := p2.wg + 1 }).ConnectedProxies
          = some ⟨[(getID agent.principals).1]⟩ ∧
        (AgentPool.updateConnectedProxies getID
        { p2 with active := p2.active.add agent, wg := p2.wg + 1 }).active.agents
          = [agent] := by
      simp [AgentPool.updateConnectedProxies, AgentPool.setProxyIDs, hflag2, agentStore.last,
        agentStore.add, hempty, AgentPool.ConnectedProxies, hcfg, hc,
        ConnectedProxies.updateProxyIDs]
    refine ⟨?_, agent, hres.2, hres.1⟩
    rw [hres.1]
    simp [AgentPool.activeProxyIDs, hres.2]
  · intro p agent state
    simp only [AgentPool.ConnectedProxies, handleEvent_config]
  · intro p hflag hcp
    obtain ⟨c, hc⟩ := Option.ne_none_iff_exists'.mp hcp
    simp only [AgentPool.ConnectedProxies] at hc
    simp [AgentPool.updateConnectedProxies, AgentPool.setProxyIDs, hflag,
      AgentPool.ConnectedProxies, hc, ConnectedProxies.updateProxyIDs]

/-- The connected proxies after the first agent is added with proxy peering on. -/
theorem connected_proxies_follow_added_agent_sample :
    peeringPool.ConnectedProxies = some ⟨peeringPool.activeProxyIDs sampleGetID⟩ :=
  ((connected_proxies_follow_added_agent sampleGetID).1 samplePool peeringPool
    (quietEnv peeringOn ⟨1⟩ agentA) (by decide) (by decide) (by decide)).1

/-! ## Events -/

/-- C7. For every pool and agent: `handleEvent` on an agent in state `Closed`
leaves the store without that agent and with all other agents as they were
and in the same order; on an agent in state `Connected` or `Connecting` it
leaves the pool unchanged; a second `Closed` event for the same agent changes
nothing; the wait group is decremented exactly when a removal happened. -/
theorem C7_handleEvent_removes_closed_agent (p : AgentPool) (agent : Agent) :
    (p.handleEvent agent AgentState.AgentClosed).active.agents
        = p.active.agents.filter (fun a => a.ptr != agent.ptr) ∧
    (∀ a ∈ (p.handleEvent agent AgentState.AgentClosed).active.agents, a.ptr ≠ agent.ptr) ∧
    p.handleEvent agent AgentState.AgentConnected = p ∧
    p.handleEvent agent AgentState.AgentConnecting = p ∧
    (p.handleEvent agent AgentState.AgentClosed).handleEvent agent AgentState.AgentClosed
        = p.handleEvent agent AgentState.AgentClosed ∧
    (p.handleEvent agent AgentState.AgentClosed).wg
        = (if (p.active.remove agent).2 = true then p.wg - 1 else p.wg) ∧
    ((p.active.remove agent).2 = true ↔ ∃ a ∈ p.active.agents, a.ptr = agent.ptr) := by
  have hstore : (p.handleEvent agent AgentState.AgentClosed).active.agents
      = p.active.agents.filter (fun a => a.ptr != agent.ptr) := by
    simp only [AgentPool.handleEvent, agentStore.remove]
    split <;> (rename_i store heq; simp only [Prod.mk.injEq] at heq; rw [← heq.1])
  refine ⟨hstore, ?_, rfl, rfl, ?_, ?_, ?_⟩
  · intro a ha
    rw [hstore] at ha
    simpa using (List.mem_filter.mp ha).2
  · have hany : ((p.handleEvent agent AgentState.AgentClosed).active.agents.any
        (fun a => a.ptr == agent.ptr)) = false := by
      rw [hstore]
      simp [List.any_filter]
    have hfil : (p.handleEvent agent AgentState.AgentClosed).active.agents.filter
        (fun a => a.ptr != agent.ptr)
          = (p.handleEvent agent AgentState.AgentClosed).active.agents := by
      rw [hstore, List.filter_filter]
      simp
    generalize p.handleEvent agent AgentState.AgentClosed = q at hany hfil
    obtain ⟨c, ⟨l⟩, f, w, st, r, b⟩ := q
    simp only at hany hfil
    simp only [AgentPool.handleEvent, agentStore.remove, hany, hfil]
  · simp only [AgentPool.handleEvent]
    split <;> (rename_i store heq; simp [heq])
  · simp [agentStore.remove]

/-! ## Construction -/

theorem string_length_eq_zero (s : String) : s.length = 0 ↔ s = "" := by
  constructor
  · intro h
    apply String.ext
    exact List.length_eq_zero.mp h
  · intro h
    rw [h]
    rfl

/-- C8. `CheckAndSetDefaults` returns an error if and only if `Client` is nil,
`AccessPoint` is nil, `HostSigner` is nil, `HostUUID` is empty or `Cluster` is
empty; the error is the bad-parameter error of the first of them that is
missing, in that order; `NewAgentPool` returns that error, with no pool. On
success `ConnectedProxies` and `Clock` are not nil, a value supplied for them
is kept, and every other field is unchanged. -/
theorem C8_CheckAndSetDefaults_contract (cfg : AgentPoolConfig) :
    ((∃ err, cfg.CheckAndSetDefaults = .error err) ↔
      (cfg.Client = none ∨ cfg.AccessPoint = none ∨ cfg.HostSigner = none ∨
        cfg.HostUUID = "" ∨ cfg.Cluster = "")) ∧
    (cfg.Client = none →
      cfg.CheckAndSetDefaults = .error (Error.badParameter "missing 'Client' parameter")) ∧
    (cfg.Client ≠ none → cfg.AccessPoint = none →
      cfg.CheckAndSetDefaults
        = .error (Error.badParameter "missing 'AccessPoint' parameter")) ∧
    (cfg.Client ≠ none → cfg.AccessPoint ≠ none → cfg.HostSigner = none →
      cfg.CheckAndSetDefaults
        = .error (Error.badParameter "missing 'HostSigner' parameter")) ∧
    (cfg.Client ≠ none → cfg.AccessPoint ≠ none → cfg.HostSigner ≠ none →
      cfg.HostUUID = "" →
      cfg.CheckAndSetDefaults
        = .error (Error.badParameter "missing 'HostUUID' parameter")) ∧
    (cfg.Client ≠ none → cfg.AccessPoint ≠ none → cfg.HostSigner ≠ none →
      cfg.HostUUID ≠ "" → cfg.Cluster = "" →
      cfg.CheckAndSetDefaults
        = .error (Error.badParameter "missing 'Cluster' parameter")) ∧
    (∀ (err : Error) (retry tracker : Option Error),
      cfg.CheckAndSetDefaults = .error err →
      NewAgentPool cfg retry tracker = .error err) ∧
    (∀ cfg' : AgentPoolConfig, cfg.CheckAndSetDefaults = .ok cfg' →
      cfg'.ConnectedProxies ≠ none ∧ cfg'.Clock ≠ none ∧
      (cfg.ConnectedProxies ≠ none → cfg'.ConnectedProxies = cfg.ConnectedProxies) ∧
      (cfg.Clock ≠ none → cfg'.Clock = cfg.Clock) ∧
      cfg' = { cfg with ConnectedProxies := cfg'.ConnectedProxies, Clock := cfg'.Clock }) := by
  have hlen := string_length_eq_zero cfg.HostUUID
  refine ⟨?_, ?_, ?_, ?_, ?_, ?_, ?_, ?_⟩
  · simp only [AgentPoolConfig.CheckAndSetDefaults, hlen]
    by_cases h1 : cfg.Client = none
    · simp [h1]
    · by_cases h2 : cfg.AccessPoint = none
      · simp [h1, h2]
      · by_cases h3 : cfg.HostSigner = none
        · simp [h1, h2, h3]
        · by_cases h4 : cfg.HostUUID = ""
          · simp [h1, h2, h3, h4]
          · by_cases h5 : cfg.Cluster = ""
            · simp [h1, h2, h3, h4, h5]
            · simp [h1, h2, h3, h4, h5]
  · intro h1
    simp [AgentPoolConfig.CheckAndSetDefaults, h1]
  · intro h1 h2
    simp [AgentPoolConfig.CheckAndSetDefaults, h1, h2]
  · intro h1 h2 h3
    simp [AgentPoolConfig.CheckAndSetDefaults, h1, h2, h3]
  · intro h1 h2 h3 h4
    simp [AgentPoolConfig.CheckAndSetDefaults, h1, h2, h3, hlen, h4]
  · intro h1 h2 h3 h4 h5
    simp [AgentPoolConfig.CheckAndSetDefaults, h1, h2, h3, hlen, h4, h5]
  · intro err retry tracker h
    simp [NewAgentPool, h, trace.Wrap]
  · intro cfg' h
    simp only [AgentPoolConfig.CheckAndSetDefaults, hlen] at h
    split at h
    · simp at h
    · split at h
      · simp at h
      · split at h
        · simp at h
        · split at h
          · simp at h
          · split at h
            · simp at h
            · simp only [Except.ok.injEq] at h
              subst h
              obtain ⟨c1, c2, c3, c4, c5, clock, c7, c8, c9, c10, c11, c12, c13, c14, cp⟩ := cfg
              cases clock <;> cases cp <;> simp

/-- C8 on a configuration without `HostSigner`: that is the error, and
`NewAgentPool` returns it. -/
theorem C8_CheckAndSetDefaults_contract_witness :
    NewAgentPool { sampleConfig with HostSigner := none } none none
      = .error (Error.badParameter "missing 'HostSigner' parameter") :=
  (C8_CheckAndSetDefaults_contract { sampleConfig with HostSigner := none }).2.2.2.2.2.2.1
    _ none none
    ((C8_CheckAndSetDefaults_contract { sampleConfig with HostSigner := none }).2.2.2.1
      (by decide) (by decide) (by decide))

/-! ## The agent dialer -/

theorem dialLoop_error (env : DialEnv) (opts : List DialerOptionFunc)
    (methods : List AuthMethod) (turn : Nat) (e : Error)
    (h : agentDialer.dialLoop env opts turn methods = .error e) :
    e = Error.badParameter "failed to dial: all auth methods failed" ∧
    ∀ i m, methods[i]? = some m →
      ∃ cause, agentDialer.attempt env opts (turn + i) m = .error cause := by
  induction methods generalizing turn with
  | nil =>
    simp only [agentDialer.dialLoop, Except.error.injEq] at h
    exact ⟨h.symm, by simp⟩
  | cons m rest ih =>
    simp only [agentDialer.dialLoop] at h
    split at h
    · rename_i cause hc
      obtain ⟨he, hall⟩ := ih (turn + 1) h
      refine ⟨he, ?_⟩
      intro i m' hi
      cases i with
      | zero =>
        simp only [List.getElem?_cons_zero, Option.some.injEq] at hi
        subst hi
        exact ⟨cause, hc⟩
      | succ i =>
        simp only [List.getElem?_cons_succ] at hi
        have := hall i m' hi
        rwa [Nat.add_assoc, Nat.add_comm 1 i] at this
    · simp at h

theorem dialLoop_all_fail (env : DialEnv) (opts : List DialerOptionFunc)
    (methods : List AuthMethod) (turn : Nat)
    (h : ∀ i m, methods[i]? = some m →
      ∃ cause, agentDialer.attempt env opts (turn + i) m = .error cause) :
    agentDialer.dialLoop env opts turn methods
      = .error (Error.badParameter "failed to dial: all auth methods failed") := by
  induction methods generalizing turn with
  | nil => rfl
  | cons m rest ih =>
    obtain ⟨cause, hc⟩ := h 0 m (by simp)
    simp only [Nat.add_zero] at hc
    simp only [agentDialer.dialLoop, hc]
    apply ih
    intro i m' hi
    have := h (i + 1) m' (by simpa using hi)
    rwa [Nat.add_assoc, Nat.add_comm 1 i]

theorem dialLoop_ok (env : DialEnv) (opts : List DialerOptionFunc)
    (methods : List AuthMethod) (turn : Nat) (client : sshClient) :
    agentDialer.dialLoop env opts turn methods = .ok client ↔
      ∃ i m, methods[i]? = some m ∧
        agentDialer.attempt env opts (turn + i) m = .ok client ∧
        ∀ j m', j < i → methods[j]? = some m' →
          ∃ cause, agentDialer.attempt env opts (turn + j) m' = .error cause := by
  induction methods generalizing turn with
  | nil => simp [agentDialer.dialLoop]
  | cons m rest ih =>
    simp only [agentDialer.dialLoop]
    split
    · rename_i cause hc
      rw [ih (turn + 1)]
      constructor
      · rintro ⟨i, m', hi, hok, hbefore⟩
        refine ⟨i + 1, m', by simpa using hi, ?_, ?_⟩
        · rwa [Nat.add_assoc, Nat.add_comm 1 i] at hok
        · intro j m'' hj hm
          cases j with
          | zero =>
            simp only [List.getElem?_cons_zero, Option.some.injEq] at hm
            subst hm
            exact ⟨cause, hc⟩
          | succ j =>
            simp only [List.getElem?_cons_succ] at hm
            have := hbefore j m'' (by omega) hm
            rwa [Nat.add_assoc, Nat.add_comm 1 j] at this
      · rintro ⟨i, m', hi, hok, hbefore⟩
        cases i with
        | zero =>
          simp only [List.getElem?_cons_zero, Option.some.injEq] at hi
          subst hi
          simp only [Nat.add_zero] at hok
          rw [hc] at hok
          simp at hok
        | succ i =>
          simp only [List.getElem?_cons_succ] at hi
          refine ⟨i, m', hi, ?_, ?_⟩
          · rwa [Nat.add_assoc, Nat.add_comm 1 i]
          · intro j m'' hj hm
            have := hbefore (j + 1) m'' (by omega) (by simpa using hm)
            rwa [Nat.add_assoc, Nat.add_comm 1 j]
    · rename_i c hc
      constructor
      · intro h
        simp only [Except.ok.injEq] at h
        subst h
        exact ⟨0, m, by simp, by simpa using hc, by intro j m' hj; omega⟩
      · rintro ⟨i, m', hi, hok, hbefore⟩
        cases i with
        | zero =>
          simp only [List.getElem?_cons_zero, Option.some.injEq] at hi
          subst hi
          simp only [Nat.add_zero] at hok
          rw [hc] at hok
          exact hok
        | succ i =>
          obtain ⟨cause, hcause⟩ := hbefore 0 m (by omega) (by simp)
          simp only [Nat.add_zero] at hcause
          rw [hc] at hcause
          simp at hcause

/-- C9, as stated, fails: when the only authentication method fails at the
transport dial with the cause "connection refused", `DialContext` returns the
fixed bad-parameter error, which is not that cause, and it returns the very
same error when the cause is "no route to host". -/
theorem C9_error_does_not_carry_cause :
    agentDialer.attempt (refusingEnv (Error.other "connection refused")) [] 0 ⟨1⟩
      = .error (Error.other "connection refused") ∧
    sampleDialer.DialContext (refusingEnv (Error.other "connection refused"))
      = .error (Error.badParameter "failed to dial: all auth methods failed") ∧
    sampleDialer.DialContext (refusingEnv (Error.other "no route to host"))
      = sampleDialer.DialContext (refusingEnv (Error.other "connection refused")) := by
  decide

/-- C9, amended. If every authentication method fails (at the transport dial,
at the construction of the host key callback or at the SSH handshake), and in
particular if there is none, `DialContext` returns no session and the fixed
bad-parameter error "failed to dial: all auth methods failed", whatever the
causes were; it returns no other error; and it returns a session if and only
if some method succeeds, namely the session of the first one that succeeds in
list order. -/
theorem C9_DialContext_result (d : agentDialer) (env : DialEnv) :
    ((∀ i m, d.authMethods[i]? = some m →
        ∃ cause, agentDialer.attempt env (agentDialer.proxyOptions env) i m = .error cause) →
      d.DialContext env
        = .error (Error.badParameter "failed to dial: all auth methods failed")) ∧
    (d.authMethods = [] →
      d.DialContext env
        = .error (Error.badParameter "failed to dial: all auth methods failed")) ∧
    (∀ e, d.DialContext env = .error e →
      e = Error.badParameter "failed to dial: all auth methods failed" ∧
      ∀ i m, d.authMethods[i]? = some m →
        ∃ cause, agentDialer.attempt env (agentDialer.proxyOptions env) i m = .error cause) ∧
    (∀ client, d.DialContext env = .ok client ↔
      ∃ i m, d.authMethods[i]? = some m ∧
        agentDialer.attempt env (agentDialer.proxyOptions env) i m = .ok client ∧
        ∀ j m', j < i → d.authMethods[j]? = some m' →
          ∃ cause,
            agentDialer.attempt env (agentDialer.proxyOptions env) j m' = .error cause) := by
  refine ⟨?_, ?_, ?_, ?_⟩
  · intro h
    apply dialLoop_all_fail
    simpa using h
  · intro h
    simp [agentDialer.DialContext, h, agentDialer.dialLoop]
  · intro e h
    simpa using dialLoop_error env _ d.authMethods 0 e h
  · intro client
    simpa using dialLoop_ok env (agentDialer.proxyOptions env) d.authMethods 0 client

/-- C9, amended, on three methods of which the first fails at the transport
dial: the session is the one of the second method. -/
theorem C9_DialContext_result_witness :
    threeMethodDialer.DialContext secondSucceedsEnv
      = .ok { conn := 11, principals := ["proxy-a.root"] } :=
  ((C9_DialContext_result threeMethodDialer secondSucceedsEnv).2.2.2 _).mpr
    ⟨1, ⟨2⟩, by decide, by decide, by
      intro j m' hj hm
      have hj0 : j = 0 := by omega
      subst hj0
      exact ⟨Error.other "connection refused", by
        simp only [threeMethodDialer, List.getElem?_cons_zero, Option.some.injEq] at hm
        subst hm
        decide⟩⟩

/-! ## The adapter -/

theorem step_sound (l : ServerHandlerToListener) (move : AdapterMove)
    (h : ∀ call ∈ l.calls, call.sound) : ∀ call ∈ (l.step move).calls, call.sound := by
  cases move with
  | HandleConnection c =>
    intro call hc
    simp only [ServerHandlerToListener.step, ServerHandlerToListener.HandleConnection] at hc
    split at hc
    · simp only [List.mem_append, List.mem_singleton] at hc
      rcases hc with hc | rfl
      · exact h call hc
      · simp [HandleCall.sound, newConnCloser]
    · simp only [List.mem_append, List.mem_singleton] at hc
      rcases hc with hc | rfl
      · exact h call hc
      · simp [HandleCall.sound, newConnCloser]
  | Accept pick =>
    intro call hc
    simp only [ServerHandlerToListener.step, ServerHandlerToListener.Accept] at hc
    split at hc
    · exact h call hc
    · rename_i r l1 heq
      split at heq
      · simp only [Option.some.injEq, Prod.mk.injEq] at heq
        rw [← heq.2] at hc
        exact h call hc
      · split at heq
        · simp at heq
        · rename_i call0 hget
          split at heq
          · rename_i hpc
            simp only [Option.some.injEq, Prod.mk.injEq] at heq
            rw [← heq.2] at hc
            rcases List.mem_or_eq_of_mem_set hc with hc | rfl
            · exact h call hc
            · have h0 := h call0 (List.getElem?_mem hget)
              exact ⟨h0.1, by simp, h0.2.2⟩
          · simp at heq
  | connClose cc err =>
    intro call hc
    simp only [ServerHandlerToListener.step] at hc
    split at hc
    · simp only [connCloser.Close] at hc
      split at hc
      · exact h call hc
      · rename_i call0 hget
        have h0 := h call0 (List.getElem?_mem hget)
        rcases List.mem_or_eq_of_mem_set hc with hc | rfl
        · exact h call hc
        · by_cases hon : call0.closeOnce = true
          · have hcl : call0.closed = true := by rw [← h0.2.2]; exact hon
            simp [HandleCall.sound, hon, hcl]
          · simp [HandleCall.sound, hon]
    · exact h call hc
  | HandleConnectionWait k =>
    intro call hc
    simp only [ServerHandlerToListener.step, ServerHandlerToListener.HandleConnectionWait] at hc
    split at hc
    · exact h call hc
    · rename_i l1 heq
      split at heq
      · simp at heq
      · rename_i call0 hget
        split at heq
        · rename_i hw
          simp only [Option.some.injEq] at heq
          rw [← heq] at hc
          rcases List.mem_or_eq_of_mem_set hc with hc | rfl
          · exact h call hc
          · have h0 := h call0 (List.getElem?_mem hget)
            exact ⟨h0.1, fun _ => hw.2, h0.2.2⟩
        · simp at heq
  | Close =>
    intro call hc
    simp only [ServerHandlerToListener.step, ServerHandlerToListener.Close] at hc
    split at hc
    · exact h call hc
    · simp only [List.mem_map] at hc
      obtain ⟨call0, hmem, rfl⟩ := hc
      have h0 := h call0 hmem
      split
      · exact ⟨h0.1, by simp, h0.2.2⟩
      · exact h0

theorem run_sound (moves : List AdapterMove) (l : ServerHandlerToListener)
    (h : ∀ call ∈ l.calls, call.sound) : ∀ call ∈ (l.run moves).calls, call.sound := by
  induction moves generalizing l with
  | nil => exact h
  | cons move rest ih => exact ih _ (step_sound l move h)

theorem set_concat_length (calls : List HandleCall) (a b : HandleCall) :
    (calls ++ [a]).set calls.length b = calls ++ [b] := by
  induction calls with
  | nil => rfl
  | cons x rest ih => simp [List.set, ih]

/-- C10, as stated, fails when two calls of `HandleConnection` run at the same
time: with the calls for the connections 7 and 8 both blocked in the send, the
next `Accept` can receive from the first of them; it returns a connection
wrapping 7, not 8, and the call for 8 is still blocked in the send. -/
theorem C10_next_accept_serves_other_call :
    (((NewServerHandlerToListener "tunnel").HandleConnection 7).HandleConnection 8).Accept 0
      = some ((some { Conn := 7, call := 0 }, none),
          { NewServerHandlerToListener "tunnel" with
            calls := [{ newConnCloser 7 with pc := CallState.waiting }, newConnCloser 8] }) ∧
    (newConnCloser 8).pc = CallState.sending := by
  decide

/-- C10, amended. Round trip through the adapter.
* A connection `c` passed to `HandleConnection` on an open adapter can be
  received by `Accept`, which returns a `connCloser` wrapping `c` and a nil
  error; when no other call is blocked in the send, whatever `Accept` returns
  next is that connection.
* In every state the adapter reaches from `NewServerHandlerToListener`, a call
  of `HandleConnection` that has returned has had `Close()` called on its
  connection; and as long as the channel `closed` of a call is open its
  `cc.wait()` blocks.
* In every such state, after `Close()` on the accepted connection of a call
  standing in `cc.wait()`, the call returns.
* `Close()` on the accepted connection calls `Close()` on the wrapped `c` and
  returns its result. -/
theorem C10_adapter_round_trip :
    (∀ (l : ServerHandlerToListener) (c : Nat), l.connChClosed = false →
      (l.HandleConnection c).Accept l.calls.length
        = some ((some { Conn := c, call := l.calls.length }, none),
            { l with calls := l.calls ++ [{ newConnCloser c with pc := CallState.waiting }] }) ∧
      ((∀ call ∈ l.calls, call.pc ≠ CallState.sending) →
        ∀ pick r, (l.HandleConnection c).Accept pick = some r →
          r.1 = (some { Conn := c, call := l.calls.length }, none))) ∧
    (∀ (tunnelAddr : String) (moves : List AdapterMove) (k : Nat) (call : HandleCall),
      ((NewServerHandlerToListener tunnelAddr).run moves).calls[k]? = some call →
      call.pc = CallState.returned → 1 ≤ call.closeCalls) ∧
    (∀ (l : ServerHandlerToListener) (k : Nat) (call : HandleCall),
      l.calls[k]? = some call → call.closed = false → l.HandleConnectionWait k = none) ∧
    (∀ (tunnelAddr : String) (moves : List AdapterMove) (cc : connCloser)
      (err : Option Error) (call : HandleCall),
      ((NewServerHandlerToListener tunnelAddr).run moves).calls[cc.call]? = some call →
      call.pc = CallState.waiting →
      ∃ l', (connCloser.Close ((NewServerHandlerToListener tunnelAddr).run moves)
            cc err).2.HandleConnectionWait cc.call = some l' ∧
        (l'.calls[cc.call]?).map (fun done => done.pc) = some CallState.returned) ∧
    (∀ (l : ServerHandlerToListener) (cc : connCloser) (err : Option Error),
      (connCloser.Close l cc err).1 = err ∧
      (connCloser.Close l cc err).2.closedConns = l.closedConns ++ [cc.Conn]) := by
  refine ⟨?_, ?_, ?_, ?_, ?_⟩
  · intro l c hopen
    constructor
    · simp [ServerHandlerToListener.HandleConnection, ServerHandlerToListener.Accept, hopen,
        newConnCloser, set_concat_length]
    · intro hnone pick r hr
      simp only [ServerHandlerToListener.HandleConnection, hopen, Bool.false_eq_true,
        ↓reduceIte, ServerHandlerToListener.Accept] at hr
      split at hr
      · simp at hr
      · rename_i call hget
        split at hr
        · rename_i hpc
          rcases Nat.lt_trichotomy pick l.calls.length with hlt | heq | hgt
          · rw [List.getElem?_append_left hlt] at hget
            exact absurd hpc (hnone call (List.getElem?_mem hget))
          · subst heq
            simp only [List.getElem?_concat_length, Option.some.injEq] at hget
            subst hget
            simp only [Option.some.injEq] at hr
            rw [← hr]
            rfl
          · rw [List.getElem?_eq_none (by simp; omega)] at hget
            simp at hget
        · simp at hr
  · intro tunnelAddr moves k call hget hret
    have hs := run_sound moves (NewServerHandlerToListener tunnelAddr)
      (by simp [NewServerHandlerToListener]) call (List.getElem?_mem hget)
    exact hs.1 (hs.2.1 hret)
  · intro l k call hget hclosed
    simp [ServerHandlerToListener.HandleConnectionWait, hget, hclosed]
  · intro tunnelAddr moves cc err call hget hpc
    have hs := run_sound moves (NewServerHandlerToListener tunnelAddr)
      (by simp [NewServerHandlerToListener]) call (List.getElem?_mem hget)
    generalize (NewServerHandlerToListener tunnelAddr).run moves = l at hget
    have hlt : cc.call < l.calls.length := by
      rcases Nat.lt_or_ge cc.call l.calls.length with h | h
      · exact h
      · rw [List.getElem?_eq_none h] at hget
        simp at hget
    by_cases hon : call.closeOnce = true
    · have hcl : call.closed = true := by rw [← hs.2.2]; exact hon
      simp [connCloser.Close, hget, ServerHandlerToListener.HandleConnectionWait, hlt, hpc,
        hon, hcl, List.getElem?_set]
    · simp [connCloser.Close, hget, ServerHandlerToListener.HandleConnectionWait, hlt, hpc,
        hon, List.getElem?_set]
  · intro l cc err
    simp only [connCloser.Close]
    split <;> exact ⟨rfl, rfl⟩

/-- C10, amended, on one round trip: `HandleConnection(7)` starts on a new adapter,
`Accept` returns the `connCloser` around 7 with a nil error, the call is still
in `cc.wait()` as long as nobody closes that connection, and after `Close()`
on it the call has returned and the wrapped connection 7 is closed. -/
theorem C10_adapter_round_trip_witness :
    ((NewServerHandlerToListener "tunnel").HandleConnection 7).Accept 0
      = some ((some { Conn := 7, call := 0 }, none),
          { NewServerHandlerToListener "tunnel" with
            calls := [{ newConnCloser 7 with pc := CallState.waiting }] }) ∧
    ((NewServerHandlerToListener "tunnel").run
      [AdapterMove.HandleConnection 7, AdapterMove.Accept 0,
        AdapterMove.HandleConnectionWait 0]).calls.map (fun call => call.pc)
      = [CallState.waiting] ∧
    ((NewServerHandlerToListener "tunnel").run
      [AdapterMove.HandleConnection 7, AdapterMove.Accept 0,
        AdapterMove.connClose { Conn := 7, call := 0 } none,
        AdapterMove.HandleConnectionWait 0]).calls.map (fun call => call.pc)
      = [CallState.returned] ∧
    ((NewServerHandlerToListener "tunnel").run
      [AdapterMove.HandleConnection 7, AdapterMove.Accept 0,
        AdapterMove.connClose { Conn := 7, call := 0 } none,
        AdapterMove.HandleConnectionWait 0]).closedConns = [7] :=
  ⟨(C10_adapter_round_trip.1 (NewServerHandlerToListener "tunnel") 7 (by decide)).1,
    by decide, by decide, by decide⟩

/-! ## Closing the listener -/

theorem Close_onceSound (l : ServerHandlerToListener) (h : l.onceSound) :
    l.Close.2.onceSound := by
  obtain ⟨h1, h2⟩ := h
  simp only [ServerHandlerToListener.Close]
  split
  · exact ⟨h1, h2⟩
  · rename_i hon
    simp only [Bool.not_eq_true] at hon
    simp [ServerHandlerToListener.onceSound, h2, hon]

theorem step_onceSound (l : ServerHandlerToListener) (move : AdapterMove)
    (h : l.onceSound) : (l.step move).onceSound := by
  cases move with
  | HandleConnection c =>
    simp only [ServerHandlerToListener.step, ServerHandlerToListener.HandleConnection]
    split <;> exact h
  | Accept pick =>
    simp only [ServerHandlerToListener.step, ServerHandlerToListener.Accept]
    split
    · exact h
    · rename_i r l1 heq
      split at heq
      · simp only [Option.some.injEq, Prod.mk.injEq] at heq
        rw [← heq.2]
        exact h
      · split at heq
        · simp at heq
        · split at heq
          · simp only [Option.some.injEq, Prod.mk.injEq] at heq
            rw [← heq.2]
            exact h
          · simp at heq
  | connClose cc err =>
    simp only [ServerHandlerToListener.step]
    split
    · simp only [connCloser.Close]
      split <;> exact h
    · exact h
  | HandleConnectionWait k =>
    simp only [ServerHandlerToListener.step, ServerHandlerToListener.HandleConnectionWait]
    split
    · exact h
    · rename_i l1 heq
      split at heq
      · simp at heq
      · split at heq
        · simp only [Option.some.injEq] at heq
          rw [← heq]
          exact h
        · simp at heq
  | Close => exact Close_onceSound l h

theorem run_onceSound (moves : List AdapterMove) (l : ServerHandlerToListener)
    (h : l.onceSound) : (l.run moves).onceSound := by
  induction moves generalizing l with
  | nil => exact h
  | cons move rest ih => exact ih _ (step_onceSound l move h)

theorem new_onceSound (tunnelAddr : String) :
    (NewServerHandlerToListener tunnelAddr).onceSound := by
  simp [ServerHandlerToListener.onceSound, NewServerHandlerToListener]

theorem Close_closeOnce (l : ServerHandlerToListener) : l.Close.2.closeOnce = true := by
  simp only [ServerHandlerToListener.Close]
  split
  · assumption
  · rfl

theorem Close_Close (l : ServerHandlerToListener) : l.Close.2.Close.2 = l.Close.2 := by
  have h := Close_closeOnce l
  generalize l.Close.2 = l1 at h
  simp [ServerHandlerToListener.Close, h]

theorem CloseTimes_eq (l : ServerHandlerToListener) (n : Nat) (h : 1 ≤ n) :
    l.CloseTimes n = l.Close.2 := by
  induction n generalizing l with
  | zero => omega
  | succ n ih =>
    cases n with
    | zero => rfl
    | succ n =>
      rw [ServerHandlerToListener.CloseTimes, ih _ (by omega), Close_Close]

theorem step_closeOnce (l : ServerHandlerToListener) (move : AdapterMove)
    (h : l.closeOnce = true) : (l.step move).closeOnce = true := by
  cases move with
  | HandleConnection c =>
    simp only [ServerHandlerToListener.step, ServerHandlerToListener.HandleConnection]
    split <;> exact h
  | Accept pick =>
    simp only [ServerHandlerToListener.step, ServerHandlerToListener.Accept]
    split
    · exact h
    · rename_i r l1 heq
      split at heq
      · simp only [Option.some.injEq, Prod.mk.injEq] at heq
        rw [← heq.2]
        exact h
      · split at heq
        · simp at heq
        · split at heq
          · simp only [Option.some.injEq, Prod.mk.injEq] at heq
            rw [← heq.2]
            exact h
          · simp at heq
  | connClose cc err =>
    simp only [ServerHandlerToListener.step]
    split
    · simp only [connCloser.Close]
      split <;> exact h
    · exact h
  | HandleConnectionWait k =>
    simp only [ServerHandlerToListener.step, ServerHandlerToListener.HandleConnectionWait]
    split
    · exact h
    · rename_i l1 heq
      split at heq
      · simp at heq
      · split at heq
        · simp only [Option.some.injEq] at heq
          rw [← heq]
          exact h
        · simp at heq
  | Close => exact Close_closeOnce l

theorem run_closeOnce (moves : List AdapterMove) (l : ServerHandlerToListener)
    (h : l.closeOnce = true) : (l.run moves).closeOnce = true := by
  induction moves generalizing l with
  | nil => exact h
  | cons move rest ih => exact ih _ (step_closeOnce l move h)

/-- C11. `Close` on the listener is idempotent. In every state `Close` returns
nil, a second `Close` leaves the state exactly as the first left it, and so
does any number of further ones. In every state that the adapter reaches from
`NewServerHandlerToListener`, `close(l.connCh)` has run at most once, and
after one or more calls of `Close` it has run exactly once and the channel is
closed. Whatever happens after a `Close`, every `Accept` returns
`(nil, io.EOF)` and leaves the state as it is. -/
theorem C11_Close_idempotent :
    (∀ l : ServerHandlerToListener, l.Close.1 = none) ∧
    (∀ l : ServerHandlerToListener, l.Close.2.Close.2 = l.Close.2) ∧
    (∀ (l : ServerHandlerToListener) (n : Nat), 1 ≤ n → l.CloseTimes n = l.Close.2) ∧
    (∀ (tunnelAddr : String) (moves : List AdapterMove),
      ((NewServerHandlerToListener tunnelAddr).run moves).connChCloses ≤ 1) ∧
    (∀ (tunnelAddr : String) (moves : List AdapterMove) (n : Nat), 1 ≤ n →
      (((NewServerHandlerToListener tunnelAddr).run moves).CloseTimes n).connChCloses = 1 ∧
      (((NewServerHandlerToListener tunnelAddr).run moves).CloseTimes n).connChClosed
        = true) ∧
    (∀ (tunnelAddr : String) (before after : List AdapterMove) (pick : Nat),
      ((((NewServerHandlerToListener tunnelAddr).run before).Close.2).run after).Accept pick
        = some ((none, some Error.EOF),
            (((NewServerHandlerToListener tunnelAddr).run before).Close.2).run after)) := by
  refine ⟨?_, Close_Close, CloseTimes_eq, ?_, ?_, ?_⟩
  · intro l
    simp only [ServerHandlerToListener.Close]
    split <;> rfl
  · intro tunnelAddr moves
    have h := run_onceSound moves _ (new_onceSound tunnelAddr)
    rw [h.2]
    split <;> omega
  · intro tunnelAddr moves n hn
    rw [CloseTimes_eq _ n hn]
    have h := Close_onceSound _ (run_onceSound moves _ (new_onceSound tunnelAddr))
    have hc := Close_closeOnce ((NewServerHandlerToListener tunnelAddr).run moves)
    exact ⟨by rw [h.2, hc]; rfl, by rw [h.1, hc]⟩
  · intro tunnelAddr before after pick
    have h := run_onceSound after _
      (Close_onceSound _ (run_onceSound before _ (new_onceSound tunnelAddr)))
    have hc := run_closeOnce after _
      (Close_closeOnce ((NewServerHandlerToListener tunnelAddr).run before))
    have hclosed := h.1.trans hc
    simp [ServerHandlerToListener.Accept, hclosed]

/-- C11 on an adapter with one accepted connection: three calls of `Close`
leave what one call leaves, with the channel closed once. -/
theorem C11_Close_idempotent_witness :
    ((NewServerHandlerToListener "tunnel").run
      [AdapterMove.HandleConnection 7, AdapterMove.Accept 0]).CloseTimes 3
      = ((NewServerHandlerToListener "tunnel").run
          [AdapterMove.HandleConnection 7, AdapterMove.Accept 0]).Close.2 ∧
    (((NewServerHandlerToListener "tunnel").run
      [AdapterMove.HandleConnection 7, AdapterMove.Accept 0]).CloseTimes 3).connChCloses = 1 :=
  ⟨C11_Close_idempotent.2.2.1 _ 3 (by decide),
    (C11_Close_idempotent.2.2.2.2.1 "tunnel"
      [AdapterMove.HandleConnection 7, AdapterMove.Accept 0] 3 (by decide)).1⟩

/-! ## The address of the listener -/

theorem step_tunnelAddr (l : ServerHandlerToListener) (move : AdapterMove) :
    (l.step move).tunnelAddr = l.tunnelAddr := by
  cases move with
  | HandleConnection c =>
    simp only [ServerHandlerToListener.step, ServerHandlerToListener.HandleConnection]
    split <;> rfl
  | Accept pick =>
    simp only [ServerHandlerToListener.step, ServerHandlerToListener.Accept]
    split
    · rfl
    · rename_i r l1 heq
      split at heq
      · simp only [Option.some.injEq, Prod.mk.injEq] at heq
        rw [← heq.2]
      · split at heq
        · simp at heq
        · split at heq
          · simp only [Option.some.injEq, Prod.mk.injEq] at heq
            rw [← heq.2]
          · simp at heq
  | connClose cc err =>
    simp only [ServerHandlerToListener.step]
    split
    · simp only [connCloser.Close]
      split <;> rfl
    · rfl
  | HandleConnectionWait k =>
    simp only [ServerHandlerToListener.step, ServerHandlerToListener.HandleConnectionWait]
    split
    · rfl
    · rename_i l1 heq
      split at heq
      · simp at heq
      · split at heq
        · simp only [Option.some.injEq] at heq
          rw [← heq]
        · simp at heq
  | Close =>
    simp only [ServerHandlerToListener.step, ServerHandlerToListener.Close]
    split <;> rfl

theorem run_tunnelAddr (moves : List AdapterMove) (l : ServerHandlerToListener) :
    (l.run moves).tunnelAddr = l.tunnelAddr := by
  induction moves generalizing l with
  | nil => rfl
  | cons move rest ih =>
    rw [ServerHandlerToListener.run, ih, step_tunnelAddr]

/-- C12. For every string `s`, `reverseTunnelAddr(s).Network()` is
"ssh-reversetunnel" and `reverseTunnelAddr(s).String()` is `s`;
`NewServerHandlerToListener(s).Addr()` is `reverseTunnelAddr(s)`, so its
`String()` is `s` and its `Network()` is "ssh-reversetunnel"; and `Addr()`
stays that address whatever is done with the adapter. -/
theorem C12_reverseTunnelAddr (s : String) :
    (reverseTunnelAddr.mk s).Network = "ssh-reversetunnel" ∧
    (reverseTunnelAddr.mk s).String = s ∧
    (NewServerHandlerToListener s).Addr = reverseTunnelAddr.mk s ∧
    (NewServerHandlerToListener s).Addr.String = s ∧
    (NewServerHandlerToListener s).Addr.Network = "ssh-reversetunnel" ∧
    (∀ moves : List AdapterMove,
      ((NewServerHandlerToListener s).run moves).Addr = reverseTunnelAddr.mk s) := by
  refine ⟨rfl, rfl, rfl, rfl, rfl, ?_⟩
  intro moves
  simp only [ServerHandlerToListener.Addr, run_tunnelAddr]
  rfl

/-! ## Creating an agent -/

theorem CheckAndSetDefaults_Resolver (cfg cfg' : AgentPoolConfig)
    (h : cfg.CheckAndSetDefaults = .ok cfg') :
    cfg'.Resolver = cfg.Resolver ∧ cfg'.AccessPoint ≠ none := by
  simp only [AgentPoolConfig.CheckAndSetDefaults] at h
  split at h
  · simp at h
  · split at h
    · simp at h
    · rename_i hap
      split at h
      · simp at h
      · split at h
        · simp at h
        · split at h
          · simp at h
          · simp only [Except.ok.injEq] at h
            subst h
            obtain ⟨c1, c2, c3, c4, c5, clock, c7, c8, c9, c10, c11, c12, c13, c14, cp⟩ := cfg
            cases clock <;> cases cp <;> exact ⟨rfl, hap⟩

/-- C15, as stated, fails. A configuration without a `Resolver` is accepted by
`CheckAndSetDefaults` and `NewAgentPool`, and `newAgent` faults on the pool
when it calls the nil `Resolver`. On a configuration with a `Resolver`, which
is accepted as well, `newAgent` faults when the `Resolver` returns a nil
address with a nil error, on `*addr`, and when the `AccessPoint` returns a nil
networking configuration with a nil error, on
`netConfig.GetKeepAliveInterval()`. -/
theorem C15_newAgent_faults :
    NewAgentPool { sampleConfig with Resolver := none } none none = .ok unresolvedPool ∧
    unresolvedPool.newAgent (.ok (some ⟨ProxyPeering.Disabled, 300⟩))
      (.ok (some ⟨"proxy:3024", "tcp"⟩)) (fun _ => .ok agentA) ⟨1⟩ = none ∧
    NewAgentPool sampleConfig none none = .ok samplePool ∧
    samplePool.newAgent (.ok (some ⟨ProxyPeering.Disabled, 300⟩)) (.ok none)
      (fun _ => .ok agentA) ⟨1⟩ = none ∧
    samplePool.newAgent (.ok none) (.ok (some ⟨"proxy:3024", "tcp"⟩))
      (fun _ => .ok agentA) ⟨1⟩ = none := by
  decide

/-- C15, amended. On a pool whose configuration `CheckAndSetDefaults` has
accepted, which has an `AccessPoint` and keeps the `Resolver` as it was
supplied: if the `Resolver` is not nil, does not return a nil address with a
nil error, and the `AccessPoint` does not return a nil networking
configuration with a nil error, `newAgent` returns either an agent or an
error. -/
theorem C15_newAgent_returns (cfg cfg' : AgentPoolConfig) (p : AgentPool)
    (netConfig : Except Error (Option ClusterNetworkingConfig))
    (resolved : Except Error (Option NetAddr))
    (NewAgent : agentConfig → Except Error Agent) (lease : Lease)
    (hcheck : cfg.CheckAndSetDefaults = .ok cfg') (hp : p.AgentPoolConfig = cfg')
    (hres : cfg.Resolver ≠ none) (haddr : resolved ≠ .ok none)
    (hnet : netConfig ≠ .ok none) :
    p.AgentPoolConfig.Resolver = cfg.Resolver ∧
    p.AgentPoolConfig.AccessPoint ≠ none ∧
    ((∃ agent, p.newAgent netConfig resolved NewAgent lease = some (.ok agent)) ∨
      (∃ err, p.newAgent netConfig resolved NewAgent lease = some (.error err))) := by
  obtain ⟨hr0, hap0⟩ := CheckAndSetDefaults_Resolver cfg cfg' hcheck
  have hr : p.AgentPoolConfig.Resolver = cfg.Resolver := by rw [hp]; exact hr0
  have hap : p.AgentPoolConfig.AccessPoint ≠ none := by rw [hp]; exact hap0
  refine ⟨hr, hap, ?_⟩
  obtain ⟨r, hsome⟩ := Option.ne_none_iff_exists'.mp (hr ▸ hres)
  obtain ⟨ap, hapsome⟩ := Option.ne_none_iff_exists'.mp hap
  simp only [AgentPool.newAgent, hsome, hapsome]
  cases netConfig with
  | error err => exact Or.inr ⟨_, rfl⟩
  | ok netConfig =>
    cases resolved with
    | error err => exact Or.inr ⟨_, rfl⟩
    | ok addr =>
      cases addr with
      | none => exact absurd rfl haddr
      | some addr =>
        cases netConfig with
        | none => exact absurd rfl hnet
        | some netConfig =>
          simp only
          cases NewAgent
              { addr := addr, keepAlive := netConfig.KeepAliveInterval, lease := lease } with
          | error err => exact Or.inr ⟨_, rfl⟩
          | ok agent => exact Or.inl ⟨_, rfl⟩

/-- C15, amended, on the sample pool with a networking configuration and a
resolved address: `newAgent` returns the agent. -/
theorem C15_newAgent_returns_witness :
    (∃ agent, samplePool.newAgent (.ok (some ⟨ProxyPeering.Disabled, 300⟩))
        (.ok (some ⟨"proxy:3024", "tcp"⟩)) (fun _ => .ok agentA) ⟨1⟩ = some (.ok agent)) ∨
    (∃ err, samplePool.newAgent (.ok (some ⟨ProxyPeering.Disabled, 300⟩))
        (.ok (some ⟨"proxy:3024", "tcp"⟩)) (fun _ => .ok agentA) ⟨1⟩
          = some (.error err)) :=
  (C15_newAgent_returns sampleConfig samplePool.AgentPoolConfig samplePool
    (.ok (some ⟨ProxyPeering.Disabled, 300⟩))
    (.ok (some ⟨"proxy:3024", "tcp"⟩)) (fun _ => .ok agentA) ⟨1⟩
    (by decide) rfl (by decide) (by decide) (by decide)).2.2

/-! ## The pool loop -/

/-- A relation between pools that holds across `handleEvent` and
`isAgentRequired`, and is reflexive and transitive, holds across each of the
loops that wait on the channels. -/
theorem loops_preserve (R : AgentPool → AgentPool → Prop)
    (hrefl : ∀ p, R p p) (htrans : ∀ p q r, R p q → R q r → R p r)
    (hev : ∀ p agent state, R p (p.handleEvent agent state))
    (hreq : ∀ p config, R p (p.isAgentRequired config).2) :
    (∀ (sched : List LeaseSelect) (p q : AgentPool) (r : Except Error Lease),
      p.waitForLease sched = some (r, q) → R p q) ∧
    (∀ (sched : List BackoffSelect) (p q : AgentPool) (r : Option Error),
      p.waitForBackoff sched = some (r, q) → R p q) ∧
    (∀ (drain : List DrainSelect) (settings : Except Error ClusterNetworkingConfig)
      (block : List BlockSelect) (p q : AgentPool) (r : Option Error),
      p.processEvents drain settings block = some (r, q) → R p q) := by
  have hdrain : ∀ (sched : List DrainSelect) (p q : AgentPool) (r : Option Error),
      p.processEventsDrain sched = some (r, q) → R p q := by
    intro sched
    induction sched with
    | nil => intro p q r h; simp [AgentPool.processEventsDrain] at h
    | cons sel rest ih =>
      intro p q r h
      cases sel with
      | done err =>
        simp only [AgentPool.processEventsDrain, Option.some.injEq, Prod.mk.injEq] at h
        rw [← h.2]
        exact hrefl p
      | default =>
        simp only [AgentPool.processEventsDrain, Option.some.injEq, Prod.mk.injEq] at h
        rw [← h.2]
        exact hrefl p
      | event agent state =>
        simp only [AgentPool.processEventsDrain] at h
        exact htrans _ _ _ (hev p agent state) (ih _ _ _ h)
  have hblock : ∀ (sched : List BlockSelect) (p q : AgentPool) (r : Option Error),
      p.processEventsBlock sched = some (r, q) → R p q := by
    intro sched
    induction sched with
    | nil => intro p q r h; simp [AgentPool.processEventsBlock] at h
    | cons sel rest ih =>
      intro p q r h
      cases sel with
      | done err =>
        simp only [AgentPool.processEventsBlock, Option.some.injEq, Prod.mk.injEq] at h
        rw [← h.2]
        exact hrefl p
      | event agent state settings =>
        simp only [AgentPool.processEventsBlock] at h
        have h1 := hev p agent state
        have h2 := hreq (p.handleEvent agent state) settings
        split at h
        · rename_i p1 heq
          simp only [Option.some.injEq, Prod.mk.injEq] at h
          rw [heq] at h2
          rw [← h.2]
          exact htrans _ _ _ h1 h2
        · rename_i p1 heq
          rw [heq] at h2
          exact htrans _ _ _ h1 (htrans _ _ _ h2 (ih _ _ _ h))
  refine ⟨?_, ?_, ?_⟩
  · intro sched
    induction sched with
    | nil => intro p q r h; simp [AgentPool.waitForLease] at h
    | cons sel rest ih =>
      intro p q r h
      cases sel with
      | done err =>
        simp only [AgentPool.waitForLease, Option.some.injEq, Prod.mk.injEq] at h
        rw [← h.2]
        exact hrefl p
      | lease l =>
        simp only [AgentPool.waitForLease, Option.some.injEq, Prod.mk.injEq] at h
        rw [← h.2]
        exact hrefl p
      | event agent state =>
        simp only [AgentPool.waitForLease] at h
        exact htrans _ _ _ (hev p agent state) (ih _ _ _ h)
  · intro sched
    induction sched with
    | nil => intro p q r h; simp [AgentPool.waitForBackoff] at h
    | cons sel rest ih =>
      intro p q r h
      cases sel with
      | done err =>
        simp only [AgentPool.waitForBackoff, Option.some.injEq, Prod.mk.injEq] at h
        rw [← h.2]
        exact hrefl p
      | after =>
        simp only [AgentPool.waitForBackoff, Option.some.injEq, Prod.mk.injEq] at h
        rw [← h.2]
        exact hrefl p
      | event agent state =>
        simp only [AgentPool.waitForBackoff] at h
        exact htrans _ _ _ (hev p agent state) (ih _ _ _ h)
  · intro drain settings block p q r h
    simp only [AgentPool.processEvents] at h
    split at h
    · simp at h
    · rename_i err p1 heq
      simp only [Option.some.injEq, Prod.mk.injEq] at h
      rw [← h.2]
      exact hdrain _ _ _ _ heq
    · rename_i p1 heq
      have h1 := hdrain _ _ _ _ heq
      have h2 := hreq p1 settings
      split at h
      · rename_i p2 heq2
        simp only [Option.some.injEq, Prod.mk.injEq] at h
        rw [heq2] at h2
        rw [← h.2]
        exact htrans _ _ _ h1 h2
      · rename_i p2 heq2
        rw [heq2] at h2
        exact htrans _ _ _ h1 (htrans _ _ _ h2 (hblock _ _ _ _ h))

theorem handleEvent_backoffIncs (p : AgentPool) (agent : Agent) (state : AgentState) :
    (p.handleEvent agent state).backoffIncs = p.backoffIncs := by
  cases state with
  | AgentConnecting => rfl
  | AgentConnected => rfl
  | AgentClosed =>
    simp only [AgentPool.handleEvent]
    split <;> rfl

theorem isAgentRequired_backoffIncs (p : AgentPool)
    (config : Except Error ClusterNetworkingConfig) :
    (p.isAgentRequired config).2.backoffIncs = p.backoffIncs := by
  have hs : (p.updateSettings config).2.backoffIncs = p.backoffIncs := by
    cases config with
    | error err => rfl
    | ok config =>
      simp only [AgentPool.updateSettings]
      split <;> rfl
  simp only [AgentPool.isAgentRequired]
  split
  · exact hs
  · rw [disconnectAgents_eq]
    exact hs

theorem loops_backoffIncs :
    (∀ (sched : List LeaseSelect) (p q : AgentPool) (r : Except Error Lease),
      p.waitForLease sched = some (r, q) → q.backoffIncs = p.backoffIncs) ∧
    (∀ (sched : List BackoffSelect) (p q : AgentPool) (r : Option Error),
      p.waitForBackoff sched = some (r, q) → q.backoffIncs = p.backoffIncs) ∧
    (∀ (drain : List DrainSelect) (settings : Except Error ClusterNetworkingConfig)
      (block : List BlockSelect) (p q : AgentPool) (r : Option Error),
      p.processEvents drain settings block = some (r, q) →
      q.backoffIncs = p.backoffIncs) :=
  loops_preserve (fun p q => q.backoffIncs = p.backoffIncs) (fun _ => rfl)
    (fun _ _ _ h1 h2 => h2.trans h1) handleEvent_backoffIncs isAgentRequired_backoffIncs

theorem waitForBackoff_onlyEvents (sched : List BackoffSelect) (p q : AgentPool)
    (r : Option Error) (h : p.waitForBackoff sched = some (r, q)) : p.onlyEvents q :=
  (loops_preserve AgentPool.onlyEvents onlyEvents_refl
    (fun _ _ _ h1 h2 => onlyEvents_trans h1 h2) handleEvent_onlyEvents
    isAgentRequired_onlyEvents).2.1 sched p q r h

/-- What a call of `handle` that returns leaves: the count of `backoff.Inc()`
is untouched; on an error no agent was added and no count was added to the
wait group. -/
theorem handle_inv (getID : List String → String × Bool) (p q : AgentPool)
    (env : HandleEnv) (r : Option Error) (h : p.handle getID env = some (r, q)) :
    q.backoffIncs = p.backoffIncs ∧
    (r ≠ none → q.active.agents.Sublist p.active.agents ∧ q.wg ≤ p.wg) := by
  simp only [AgentPool.handle] at h
  split at h
  · simp at h
  · rename_i err p1 hw
    simp only [Option.some.injEq, Prod.mk.injEq] at h
    obtain ⟨-, rfl⟩ := h
    have hev := waitForLease_onlyEvents _ _ _ _ hw
    exact ⟨loops_backoffIncs.1 _ _ _ _ hw, fun _ => ⟨hev.2.1, hev.2.2.1⟩⟩
  · rename_i lease p1 hw
    have hev1 := waitForLease_onlyEvents _ _ _ _ hw
    have hb1 := loops_backoffIncs.1 _ _ _ _ hw
    have hatt : ∀ res p2, p1.handleAttempt env lease = some (res, p2) →
        p2.backoffIncs = p1.backoffIncs ∧ p1.onlyEvents p2 := by
      intro res p2 ha
      simp only [AgentPool.handleAttempt] at ha
      split at ha
      · simp at ha
      · rename_i err p2' hp
        simp only [Option.some.injEq, Prod.mk.injEq] at ha
        rw [← ha.2]
        exact ⟨loops_backoffIncs.2.2 _ _ _ _ _ _ hp, processEvents_onlyEvents _ _ _ _ _ _ hp⟩
      · rename_i p2' hp
        have hres := (⟨loops_backoffIncs.2.2 _ _ _ _ _ _ hp,
          processEvents_onlyEvents _ _ _ _ _ _ hp⟩ :
            p2'.backoffIncs = p1.backoffIncs ∧ p1.onlyEvents p2')
        split at ha
        · simp at ha
        · simp only [Option.some.injEq, Prod.mk.injEq] at ha
          rw [← ha.2]
          exact hres
        · split at ha
          · simp only [Option.some.injEq, Prod.mk.injEq] at ha
            rw [← ha.2]
            exact hres
          · simp only [Option.some.injEq, Prod.mk.injEq] at ha
            rw [← ha.2]
            exact hres
    split at h
    · simp at h
    · rename_i err p2 ha
      simp only [Option.some.injEq, Prod.mk.injEq] at h
      obtain ⟨-, rfl⟩ := h
      obtain ⟨hb2, hev2⟩ := hatt _ _ ha
      have hev := onlyEvents_trans hev1 hev2
      exact ⟨hb2.trans hb1, fun _ => ⟨hev.2.1, hev.2.2.1⟩⟩
    · rename_i agent p2 ha
      simp only [Option.some.injEq, Prod.mk.injEq] at h
      obtain ⟨rfl, rfl⟩ := h
      obtain ⟨hb2, -⟩ := hatt _ _ ha
      refine ⟨?_, fun hne => absurd rfl hne⟩
      have : (AgentPool.updateConnectedProxies getID
          { p2 with wg := p2.wg + 1, active := p2.active.add agent }).backoffIncs
            = p2.backoffIncs := by
        simp only [AgentPool.updateConnectedProxies, AgentPool.setProxyIDs]
        split
        · rfl
        · split <;> rfl
      exact this.trans (hb2.trans hb1)

/-- C14, as stated, fails. In the first turn `handle` adds `agentA`; in the
second the `Resolver` fails, so no agent is created; in the third `handle`
adds `agentB`; the fourth turn finds the context cancelled. Between the two
agent creations the backoff is incremented twice and waited for twice. -/
theorem C14_two_increments_between_creations :
    ∃ q : AgentPool,
      samplePool.start sampleGetID
          [addTurn ⟨1⟩ agentA, resolverFailsTurn ⟨2⟩, addTurn ⟨3⟩ agentB, cancelledTurn]
        = some (Error.canceled, q,
            [LoopCall.handle none, LoopCall.Inc, LoopCall.waitForBackoff none,
              LoopCall.handle (some (Error.other "no proxy address")), LoopCall.Inc,
              LoopCall.waitForBackoff none,
              LoopCall.handle none, LoopCall.Inc, LoopCall.waitForBackoff none]) ∧
      q.active.agents = [agentA, agentB] ∧ q.backoffIncs = 3 :=
  ⟨_, rfl, by decide⟩

/-- C14, amended. In every turn of the loop of `start` that passes the check
of the context and in which `handle` returns, whether with an error or after
adding an agent, the backoff is advanced exactly once and `waitForBackoff` is
then executed. Hence the calls of a run of `start` are, turn after turn, one
`handle`, one `backoff.Inc()` and one `waitForBackoff`: between two
consecutive calls of `handle` there is exactly one increment and one wait, and
the backoff has been advanced once per turn. -/
theorem C14_backoff_once_per_turn (getID : List String → String × Bool) :
    (∀ (p p1 : AgentPool) (env : StartEnv) (rest : List StartEnv) (err : Option Error),
      env.ctxErr = none → p.handle getID env.handle = some (err, p1) →
      p.start getID (env :: rest) =
        match AgentPool.waitForBackoff { p1 with backoffIncs := p1.backoffIncs + 1 }
            env.backoff with
        | none => none
        | some (err2, p2) =>
          (AgentPool.start getID p2 rest).map (fun r =>
            (r.1, r.2.1,
              [LoopCall.handle err, LoopCall.Inc, LoopCall.waitForBackoff err2] ++ r.2.2))) ∧
    (∀ (envs : List StartEnv) (p q : AgentPool) (e : Error) (calls : List LoopCall),
      p.start getID envs = some (e, q, calls) →
      ∃ turns : List (Option Error × Option Error),
        calls = turnCalls turns ∧
        q.backoffIncs = p.backoffIncs + turns.length ∧
        turns.length + 1 ≤ envs.length) := by
  constructor
  · intro p p1 env rest err hctx hh
    simp only [AgentPool.start, hctx, hh]
    split
    · rfl
    · rename_i err2 p2 hw
      cases hs : AgentPool.start getID p2 rest with
      | none => rfl
      | some r => rfl
  · intro envs
    induction envs with
    | nil => intro p q e calls h; simp [AgentPool.start] at h
    | cons env rest ih =>
      intro p q e calls h
      simp only [AgentPool.start] at h
      split at h
      · simp only [Option.some.injEq, Prod.mk.injEq] at h
        obtain ⟨-, rfl, rfl⟩ := h
        exact ⟨[], rfl, by simp, by simp⟩
      · split at h
        · simp at h
        · rename_i err p1 hh
          split at h
          · simp at h
          · rename_i err2 p2 hw
            split at h
            · simp at h
            · rename_i err3 p3 calls3 hs
              simp only [Option.some.injEq, Prod.mk.injEq] at h
              obtain ⟨-, rfl, rfl⟩ := h
              obtain ⟨turns, hcalls, hinc, hlen⟩ := ih _ _ _ _ hs
              refine ⟨(err, err2) :: turns, ?_, ?_, ?_⟩
              · rw [hcalls]
                rfl
              · have h1 := (handle_inv getID _ _ _ _ hh).1
                have h2 := loops_backoffIncs.2.1 _ _ _ _ hw
                simp only at h2
                rw [hinc, h2, h1, List.length_cons]
                omega
              · simp only [List.length_cons]
                omega

/-- C14, amended, on a run of two turns, one that adds `agentA` and one in
which the `Resolver` fails: the calls are those of two turns and the backoff
was advanced twice. -/
theorem C14_backoff_once_per_turn_witness :
    ∃ turns : List (Option Error × Option Error),
      [LoopCall.handle none, LoopCall.Inc, LoopCall.waitForBackoff none,
        LoopCall.handle (some (Error.other "no proxy address")), LoopCall.Inc,
        LoopCall.waitForBackoff none] = turnCalls turns ∧
      afterTwoTurns.backoffIncs = samplePool.backoffIncs + turns.length ∧
      turns.length + 1 ≤ [addTurn ⟨1⟩ agentA, resolverFailsTurn ⟨2⟩, cancelledTurn].length :=
  (C14_backoff_once_per_turn sampleGetID).2
    [addTurn ⟨1⟩ agentA, resolverFailsTurn ⟨2⟩, cancelledTurn] samplePool afterTwoTurns
    Error.canceled _ (by decide)

/-! ## Cancellation -/

theorem waitForLease_events_done (events : List (Agent × AgentState)) (p : AgentPool)
    (err : Error) (rest : List LeaseSelect) :
    p.waitForLease
        (events.map (fun e => LeaseSelect.event e.1 e.2) ++ LeaseSelect.done err :: rest)
      = some (.error err, p.handleEvents events) := by
  induction events generalizing p with
  | nil => rfl
  | cons e events ih =>
    obtain ⟨agent, state⟩ := e
    simp only [List.map_cons, List.cons_append, AgentPool.waitForLease,
      AgentPool.handleEvents]
    exact ih _

theorem waitForBackoff_events_done (events : List (Agent × AgentState)) (p : AgentPool)
    (err : Error) (rest : List BackoffSelect) :
    p.waitForBackoff
        (events.map (fun e => BackoffSelect.event e.1 e.2) ++ BackoffSelect.done err :: rest)
      = some (some err, p.handleEvents events) := by
  induction events generalizing p with
  | nil => rfl
  | cons e events ih =>
    obtain ⟨agent, state⟩ := e
    simp only [List.map_cons, List.cons_append, AgentPool.waitForBackoff,
      AgentPool.handleEvents]
    exact ih _

theorem processEventsDrain_events_done (events : List (Agent × AgentState))
    (p : AgentPool) (err : Error) (rest : List DrainSelect) :
    p.processEventsDrain
        (events.map (fun e => DrainSelect.event e.1 e.2) ++ DrainSelect.done err :: rest)
      = some (some err, p.handleEvents events) := by
  induction events generalizing p with
  | nil => rfl
  | cons e events ih =>
    obtain ⟨agent, state⟩ := e
    simp only [List.map_cons, List.cons_append, AgentPool.processEventsDrain,
      AgentPool.handleEvents]
    exact ih _

theorem waitForLease_cancelled (sched : List LeaseSelect) (p q : AgentPool)
    (r : Except Error Lease) (err : Error)
    (hposs : ∀ sel ∈ sched, LeaseSelect.possible (some err) sel = true)
    (h : p.waitForLease sched = some (r, q)) :
    r = .error err ∨ ∃ l, r = .ok l ∧ LeaseSelect.lease l ∈ sched := by
  induction sched generalizing p with
  | nil => simp [AgentPool.waitForLease] at h
  | cons sel rest ih =>
    cases sel with
    | done e =>
      have he := hposs (LeaseSelect.done e) (List.mem_cons_self _ _)
      simp only [LeaseSelect.possible, beq_iff_eq, Option.some.injEq] at he
      simp only [AgentPool.waitForLease, Option.some.injEq, Prod.mk.injEq] at h
      exact Or.inl (by rw [← h.1, he])
    | lease l =>
      simp only [AgentPool.waitForLease, Option.some.injEq, Prod.mk.injEq] at h
      exact Or.inr ⟨l, h.1.symm, List.mem_cons_self _ _⟩
    | event agent state =>
      simp only [AgentPool.waitForLease] at h
      rcases ih _ (fun sel hsel => hposs sel (List.mem_cons_of_mem _ hsel)) h with h1 | h1
      · exact Or.inl h1
      · obtain ⟨l, hl, hmem⟩ := h1
        exact Or.inr ⟨l, hl, List.mem_cons_of_mem _ hmem⟩

theorem waitForBackoff_cancelled (sched : List BackoffSelect) (p q : AgentPool)
    (r : Option Error) (err : Error)
    (hposs : ∀ sel ∈ sched, BackoffSelect.possible (some err) sel = true)
    (h : p.waitForBackoff sched = some (r, q)) :
    r = some err ∨ (r = none ∧ BackoffSelect.after ∈ sched) := by
  induction sched generalizing p with
  | nil => simp [AgentPool.waitForBackoff] at h
  | cons sel rest ih =>
    cases sel with
    | done e =>
      have he := hposs (BackoffSelect.done e) (List.mem_cons_self _ _)
      simp only [BackoffSelect.possible, beq_iff_eq, Option.some.injEq] at he
      simp only [AgentPool.waitForBackoff, Option.some.injEq, Prod.mk.injEq] at h
      exact Or.inl (by rw [← h.1, he])
    | after =>
      simp only [AgentPool.waitForBackoff, Option.some.injEq, Prod.mk.injEq] at h
      exact Or.inr ⟨h.1.symm, List.mem_cons_self _ _⟩
    | event agent state =>
      simp only [AgentPool.waitForBackoff] at h
      rcases ih _ (fun sel hsel => hposs sel (List.mem_cons_of_mem _ hsel)) h with h1 | h1
      · exact Or.inl h1
      · exact Or.inr ⟨h1.1, List.mem_cons_of_mem _ h1.2⟩

theorem processEventsDrain_cancelled (sched : List DrainSelect) (p q : AgentPool)
    (r : Option Error) (err : Error)
    (hposs : ∀ sel ∈ sched, DrainSelect.possible (some err) sel = true)
    (h : p.processEventsDrain sched = some (r, q)) : r = some err := by
  induction sched generalizing p with
  | nil => simp [AgentPool.processEventsDrain] at h
  | cons sel rest ih =>
    cases sel with
    | done e =>
      have he := hposs (DrainSelect.done e) (List.mem_cons_self _ _)
      simp only [DrainSelect.possible, beq_iff_eq, Option.some.injEq] at he
      simp only [AgentPool.processEventsDrain, Option.some.injEq, Prod.mk.injEq] at h
      rw [← h.1, he]
    | default =>
      have he := hposs DrainSelect.default (List.mem_cons_self _ _)
      simp [DrainSelect.possible] at he
    | event agent state =>
      simp only [AgentPool.processEventsDrain] at h
      exact ih _ (fun sel hsel => hposs sel (List.mem_cons_of_mem _ hsel)) h

/-- C13, as stated, fails. The context is cancelled while `processEvents`
stands in its second loop on a pool with proxy peering on that holds `agentA`,
and the `Closed` event of `agentA` is pending: the select can pick the event,
the store becomes empty, an agent is required, and `processEvents` returns nil
instead of the context error. In the same way `waitForBackoff` returns nil on
a cancelled context when its select picks the backoff that has elapsed. -/
theorem C13_select_picks_other_case :
    DrainSelect.possible none DrainSelect.default = true ∧
    BlockSelect.possible (some Error.canceled)
      (BlockSelect.event agentA AgentState.AgentClosed peeringOn) = true ∧
    peeringPool.processEvents [DrainSelect.default] peeringOn
        [BlockSelect.event agentA AgentState.AgentClosed peeringOn]
      = some (none, { peeringPool with active := ⟨[]⟩, wg := 0 }) ∧
    BackoffSelect.possible (some Error.canceled) BackoffSelect.after = true ∧
    peeringPool.waitForBackoff [BackoffSelect.after] = some (none, peeringPool) := by
  decide

/-- C13, amended. With `err` the error of the cancelled context:
* `waitForLease` on the cancelled context returns `err` unless it picks a
  lease, and does return it once the pending events are handled and the
  select picks the cancellation;
* `processEvents` entered on the cancelled context never takes `default`, so
  it returns `err` whenever it returns, and it does once the pending events
  are handled; in its second loop it returns `err` when the select picks the
  cancellation;
* `waitForBackoff` on the cancelled context returns `err` unless it picks the
  elapsed backoff, and does return it once the pending events are handled;
* `handle` passes the error of `waitForLease` on, and passes the error of
  `processEvents` on after releasing the lease;
* in the turn of `start` during which the context is cancelled, the backoff
  is incremented once, no agent is added after `handle` has returned, none at
  all if `handle` returned an error, and at the next check `start` returns
  `err` with the pool as that turn left it: `handle` is not called again. -/
theorem C13_cancellation (getID : List String → String × Bool) (err : Error) :
    (∀ (sched : List LeaseSelect) (p q : AgentPool) (r : Except Error Lease),
      (∀ sel ∈ sched, LeaseSelect.possible (some err) sel = true) →
      p.waitForLease sched = some (r, q) →
      r = .error err ∨ ∃ l, r = .ok l ∧ LeaseSelect.lease l ∈ sched) ∧
    (∀ (events : List (Agent × AgentState)) (p : AgentPool) (rest : List LeaseSelect),
      p.waitForLease
          (events.map (fun e => LeaseSelect.event e.1 e.2) ++ LeaseSelect.done err :: rest)
        = some (.error err, p.handleEvents events)) ∧
    (∀ (drain : List DrainSelect) (settings : Except Error ClusterNetworkingConfig)
      (block : List BlockSelect) (p q : AgentPool) (r : Option Error),
      (∀ sel ∈ drain, DrainSelect.possible (some err) sel = true) →
      p.processEvents drain settings block = some (r, q) → r = some err) ∧
    (∀ (events : List (Agent × AgentState)) (p : AgentPool) (rest : List DrainSelect)
      (settings : Except Error ClusterNetworkingConfig) (block : List BlockSelect),
      p.processEvents
          (events.map (fun e => DrainSelect.event e.1 e.2) ++ DrainSelect.done err :: rest)
          settings block
        = some (some err, p.handleEvents events)) ∧
    (∀ (p : AgentPool) (rest : List BlockSelect),
      p.processEventsBlock (BlockSelect.done err :: rest) = some (some err, p)) ∧
    (∀ (sched : List BackoffSelect) (p q : AgentPool) (r : Option Error),
      (∀ sel ∈ sched, BackoffSelect.possible (some err) sel = true) →
      p.waitForBackoff sched = some (r, q) →
      r = some err ∨ (r = none ∧ BackoffSelect.after ∈ sched)) ∧
    (∀ (events : List (Agent × AgentState)) (p : AgentPool) (rest : List BackoffSelect),
      p.waitForBackoff
          (events.map (fun e => BackoffSelect.event e.1 e.2) ++ BackoffSelect.done err :: rest)
        = some (some err, p.handleEvents events)) ∧
    (∀ (p p1 : AgentPool) (env : HandleEnv),
      p.waitForLease env.leases = some (.error err, p1) →
      p.handle getID env = some (some err, p1)) ∧
    (∀ (p p1 p2 : AgentPool) (env : HandleEnv) (lease : Lease),
      p.waitForLease env.leases = some (.ok lease, p1) →
      p1.processEvents env.drain env.settings env.block = some (some err, p2) →
      p.handle getID env
        = some (some err, { p2 with released := p2.released ++ [lease] })) ∧
    (∀ (p p1 p2 : AgentPool) (env next : StartEnv) (rest : List StartEnv)
      (r r2 : Option Error),
      env.ctxErr = none → next.ctxErr = some err →
      p.handle getID env.handle = some (r, p1) →
      AgentPool.waitForBackoff { p1 with backoffIncs := p1.backoffIncs + 1 } env.backoff
        = some (r2, p2) →
      p.start getID (env :: next :: rest)
        = some (err, p2,
            [LoopCall.handle r, LoopCall.Inc, LoopCall.waitForBackoff r2]) ∧
      p2.backoffIncs = p.backoffIncs + 1 ∧
      p2.active.agents.Sublist p1.active.agents ∧
      (r ≠ none → p2.active.agents.Sublist p.active.agents)) := by
  refine ⟨fun sched p q r => waitForLease_cancelled sched p q r err,
    fun events p rest => waitForLease_events_done events p err rest, ?_, ?_, ?_,
    fun sched p q r => waitForBackoff_cancelled sched p q r err,
    fun events p rest => waitForBackoff_events_done events p err rest, ?_, ?_, ?_⟩
  · intro drain settings block p q r hposs h
    simp only [AgentPool.processEvents] at h
    split at h
    · simp at h
    · rename_i e p1 heq
      have := processEventsDrain_cancelled _ _ _ _ err hposs heq
      simp only [Option.some.injEq] at this
      simp only [Option.some.injEq, Prod.mk.injEq] at h
      rw [← h.1, this]
      rfl
    · rename_i p1 heq
      have := processEventsDrain_cancelled _ _ _ _ err hposs heq
      simp at this
  · intro events p rest settings block
    simp only [AgentPool.processEvents, processEventsDrain_events_done, trace.Wrap]
  · intro p rest
    rfl
  · intro p p1 env h
    simp [AgentPool.handle, h, trace.Wrap]
  · intro p p1 p2 env lease h hp
    simp [AgentPool.handle, h, AgentPool.handleAttempt, hp, trace.Wrap]
  · intro p p1 p2 env next rest r r2 hctx hnext hh hw
    have hinv := handle_inv getID _ _ _ _ hh
    have hb := loops_backoffIncs.2.1 _ _ _ _ hw
    have hev := waitForBackoff_onlyEvents _ _ _ _ hw
    refine ⟨?_, ?_, hev.2.1, ?_⟩
    · simp [AgentPool.start, hctx, hh, hw, hnext, trace.Wrap]
    · rw [hb]
      simp only
      rw [hinv.1]
    · intro hr
      exact hev.2.1.trans (hinv.2 hr).1

/-- C13, amended, on a pool that holds `agentA`: the context is cancelled
while `handle` waits for a lease, after the `Closed` event of `agentA` was
handled; `handle` and `waitForBackoff` return the context error, the backoff
is incremented, and `start` returns the context error at the next check. -/
theorem C13_cancellation_witness :
    classicPool.start sampleGetID [cancelInHandleTurn, cancelledTurn]
      = some (Error.canceled,
          { classicPool with active := ⟨[]⟩, wg := 0, backoffIncs := 1 },
          [LoopCall.handle (some Error.canceled), LoopCall.Inc,
            LoopCall.waitForBackoff (some Error.canceled)]) :=
  ((C13_cancellation sampleGetID Error.canceled).2.2.2.2.2.2.2.2.2
    classicPool { classicPool with active := ⟨[]⟩, wg := 0 }
    { classicPool with active := ⟨[]⟩, wg := 0, backoffIncs := 1 }
    cancelInHandleTurn cancelledTurn [] (some Error.canceled) (some Error.canceled)
    rfl rfl (by decide) (by decide)).1

end reversetunnel
